import Mathlib

/-!
Verification of the distributed message-routing core of the
`websocket-gateway` repository (NodeManager, MessageRouter and the
chat / cursor / reaction fan-out services), as a shallow embedding.

JavaScript `Map`s are modelled as association lists with JS-`Map`
semantics (`set` keeps insertion order, `delete` removes); Redis sets
are modelled as duplicate-free lists of strings with Redis key
lifecycle (a key whose set becomes empty is deleted); timestamps are
modelled as natural numbers of milliseconds.
-/

namespace WsGateway

/-! ## JS `Map` model (association lists keyed by strings) -/

def mget {α : Type} : List (String × α) → String → Option α
  | [], _ => none
  | (k, v) :: rest, key => if k = key then some v else mget rest key

/-- Replace the value of every entry whose key is `key`. -/
def replaceVal {α : Type} (m : List (String × α)) (key : String) (v : α) :
    List (String × α) :=
  m.map (fun p => if p.1 = key then (key, v) else p)

/-- `Map.prototype.set`: replace in place if the key exists, else append. -/
def mset {α : Type} (m : List (String × α)) (key : String) (v : α) : List (String × α) :=
  if (mget m key).isSome then replaceVal m key v else m ++ [(key, v)]

/-- `Map.prototype.delete`. -/
def mdel {α : Type} (m : List (String × α)) (key : String) : List (String × α) :=
  m.filter (fun p => p.1 ≠ key)

/-- The keys of an association list are pairwise distinct (true of every
state built through JS `Map` / Redis operations). -/
def KeysNodup {α : Type} (m : List (String × α)) : Prop :=
  (m.map Prod.fst).Nodup

instance {α : Type} (m : List (String × α)) : Decidable (KeysNodup m) := by
  unfold KeysNodup
  infer_instance

/-! ## Redis set model -/

/-- `SADD` on the value of a single set. -/
def sAdd (s : List String) (x : String) : List String :=
  if x ∈ s then s else s ++ [x]

/-- `SMEMBERS` in a store of Redis sets keyed by Redis key.  A key is
absent exactly when its set is empty (Redis deletes emptied set keys). -/
def ssMembers (m : List (String × List String)) (k : String) : List String :=
  (mget m k).getD []

def ssAdd (m : List (String × List String)) (k x : String) : List (String × List String) :=
  match mget m k with
  | none => m ++ [(k, [x])]
  | some s => if x ∈ s then m else mset m k (s ++ [x])

def ssRem (m : List (String × List String)) (k x : String) : List (String × List String) :=
  match mget m k with
  | none => m
  | some s =>
    let s2 := s.filter (fun y => y ≠ x)
    if s2.isEmpty then mdel m k else mset m k s2

/-! ## Basic lemmas about the map model -/

theorem mget_cons {α : Type} (k1 : String) (v1 : α) (tl : List (String × α)) (key : String) :
    mget ((k1, v1) :: tl) key = if k1 = key then some v1 else mget tl key := rfl

theorem replaceVal_cons {α : Type} (k1 : String) (v1 : α) (tl : List (String × α))
    (key : String) (v : α) :
    replaceVal ((k1, v1) :: tl) key v =
      (if k1 = key then (key, v) else (k1, v1)) :: replaceVal tl key v := rfl

theorem mget_eq_none_iff {α : Type} (m : List (String × α)) (k : String) :
    mget m k = none ↔ ∀ p ∈ m, p.1 ≠ k := by
  induction m with
  | nil => simp [mget]
  | cons hd tl ih =>
    by_cases h : hd.1 = k
    · simp [mget, h]
    · simp [mget, h, ih]

theorem mget_mem {α : Type} {m : List (String × α)} {k : String} {v : α}
    (h : mget m k = some v) : (k, v) ∈ m := by
  induction m with
  | nil => simp [mget] at h
  | cons hd tl ih =>
    by_cases hk : hd.1 = k
    · rw [mget, if_pos hk] at h
      rcases hd with ⟨k1, v1⟩
      obtain rfl : v1 = v := by simpa using h
      simp_all
    · rw [mget, if_neg hk] at h
      exact List.mem_cons_of_mem _ (ih h)

theorem mget_append_of_none {α : Type} {m : List (String × α)} {k : String}
    (l : List (String × α)) (h : mget m k = none) :
    mget (m ++ l) k = mget l k := by
  induction m with
  | nil => simp
  | cons hd tl ih =>
    by_cases hk : hd.1 = k
    · rw [mget, if_pos hk] at h; simp at h
    · rw [mget, if_neg hk] at h
      rw [List.cons_append, mget, if_neg hk]
      exact ih h

theorem mget_replaceVal_self {α : Type} (m : List (String × α)) (k : String) (v : α) :
    mget (replaceVal m k v) k = (mget m k).map (fun _ => v) := by
  induction m with
  | nil => simp [replaceVal, mget]
  | cons hd tl ih =>
    rcases hd with ⟨k1, v1⟩
    rw [replaceVal_cons]
    by_cases hk : k1 = k
    · rw [if_pos hk, mget_cons, if_pos rfl, mget_cons, if_pos hk]
      rfl
    · rw [if_neg hk, mget_cons, if_neg hk, mget_cons, if_neg hk]
      exact ih

theorem mget_replaceVal_ne {α : Type} (m : List (String × α)) (k k2 : String) (v : α)
    (h : k2 ≠ k) : mget (replaceVal m k v) k2 = mget m k2 := by
  induction m with
  | nil => simp [replaceVal, mget]
  | cons hd tl ih =>
    by_cases hk : hd.1 = k
    · have hne : k ≠ k2 := fun hh => h hh.symm
      simp only [replaceVal, List.map_cons, if_pos hk]
      rw [mget, if_neg hne, mget, if_neg (hk ▸ hne : hd.1 ≠ k2)]
      exact ih
    · simp only [replaceVal, List.map_cons, if_neg hk]
      by_cases hk2 : hd.1 = k2
      · rw [mget, if_pos hk2, mget, if_pos hk2]
      · rw [mget, if_neg hk2, mget, if_neg hk2]
        exact ih

theorem replaceVal_of_mget_none {α : Type} {m : List (String × α)} {k : String} (v : α)
    (h : mget m k = none) : replaceVal m k v = m := by
  induction m with
  | nil => rfl
  | cons hd tl ih =>
    by_cases hk : hd.1 = k
    · rw [mget, if_pos hk] at h; simp at h
    · rw [mget, if_neg hk] at h
      simp only [replaceVal, List.map_cons, if_neg hk]
      rw [show tl.map (fun p => if p.1 = k then (k, v) else p) = replaceVal tl k v from rfl,
        ih h]

theorem replaceVal_eq_self {α : Type} {m : List (String × α)} {k : String} {v : α}
    (hnd : KeysNodup m) (h : mget m k = some v) : replaceVal m k v = m := by
  induction m with
  | nil => simp [mget] at h
  | cons hd tl ih =>
    unfold KeysNodup at hnd
    rw [List.map_cons, List.nodup_cons] at hnd
    by_cases hk : hd.1 = k
    · rw [mget, if_pos hk] at h
      have hv : v = hd.2 := by simpa using h.symm
      have htl : mget tl k = none := by
        rw [mget_eq_none_iff]
        intro p hp hpk
        exact hnd.1 (hk ▸ hpk ▸ List.mem_map_of_mem Prod.fst hp)
      simp only [replaceVal, List.map_cons, if_pos hk]
      rw [show tl.map (fun p => if p.1 = k then (k, v) else p) = replaceVal tl k v from rfl,
        replaceVal_of_mget_none v htl]
      rcases hd with ⟨k1, v1⟩
      simp only [List.cons.injEq, and_true]
      exact Prod.ext (by simpa using hk.symm) (by simpa using hv)
    · rw [mget, if_neg hk] at h
      simp only [replaceVal, List.map_cons, if_neg hk]
      rw [show tl.map (fun p => if p.1 = k then (k, v) else p) = replaceVal tl k v from rfl,
        ih hnd.2 h]

theorem mem_replaceVal {α : Type} {m : List (String × α)} {k : String} {v : α}
    {p : String × α} (h : p ∈ replaceVal m k v) : p = (k, v) ∨ p ∈ m := by
  obtain ⟨q, hq, hpq⟩ := List.mem_map.mp h
  by_cases hk : q.1 = k
  · left
    rw [if_pos hk] at hpq
    exact hpq.symm
  · right
    rw [if_neg hk] at hpq
    exact hpq ▸ hq

theorem keys_replaceVal {α : Type} (m : List (String × α)) (k : String) (v : α) :
    (replaceVal m k v).map Prod.fst = m.map Prod.fst := by
  induction m with
  | nil => rfl
  | cons hd tl ih =>
    by_cases hk : hd.1 = k
    · simp only [replaceVal, List.map_cons, if_pos hk] at ih ⊢
      rw [ih]
      simp [hk]
    · simp only [replaceVal, List.map_cons, if_neg hk] at ih ⊢
      rw [ih]

/-! lemmas about `mset` / `mdel` derived from the above -/

theorem mget_mset_self {α : Type} (m : List (String × α)) (k : String) (v : α) :
    mget (mset m k v) k = some v := by
  unfold mset
  by_cases h : (mget m k).isSome
  · rw [if_pos h, mget_replaceVal_self]
    obtain ⟨w, hw⟩ := Option.isSome_iff_exists.mp h
    rw [hw]; rfl
  · rw [if_neg h]
    rw [Option.not_isSome_iff_eq_none] at h
    rw [mget_append_of_none _ h, mget, if_pos rfl]

theorem mget_mset_ne {α : Type} (m : List (String × α)) (k k2 : String) (v : α)
    (h : k2 ≠ k) : mget (mset m k v) k2 = mget m k2 := by
  unfold mset
  by_cases hs : (mget m k).isSome
  · rw [if_pos hs, mget_replaceVal_ne m k k2 v h]
  · rw [if_neg hs]
    rw [Option.not_isSome_iff_eq_none] at hs
    cases hm2 : mget m k2 with
    | none =>
      rw [mget_append_of_none _ hm2, mget, if_neg (fun hh => h hh.symm)]
      rfl
    | some w =>
      clear hs
      induction m with
      | nil => simp [mget] at hm2
      | cons hd tl ih =>
        by_cases hk2 : hd.1 = k2
        · rw [mget, if_pos hk2] at hm2
          rw [List.cons_append, mget, if_pos hk2, hm2]
        · rw [mget, if_neg hk2] at hm2
          rw [List.cons_append, mget, if_neg hk2]
          exact ih hm2

theorem mset_eq_self {α : Type} {m : List (String × α)} {k : String} {v : α}
    (hnd : KeysNodup m) (h : mget m k = some v) : mset m k v = m := by
  unfold mset
  rw [h]
  simp only [Option.isSome_some, if_pos]
  exact replaceVal_eq_self hnd h

theorem mem_mset {α : Type} {m : List (String × α)} {k : String} {v : α} {p : String × α}
    (h : p ∈ mset m k v) : p = (k, v) ∨ p ∈ m := by
  unfold mset at h
  by_cases hs : (mget m k).isSome
  · rw [if_pos hs] at h
    exact mem_replaceVal h
  · rw [if_neg hs] at h
    rcases List.mem_append.mp h with h1 | h1
    · right; exact h1
    · left; simpa using h1

theorem keysNodup_mset {α : Type} {m : List (String × α)} (k : String) (v : α)
    (hnd : KeysNodup m) : KeysNodup (mset m k v) := by
  unfold mset
  by_cases hs : (mget m k).isSome
  · rw [if_pos hs]
    unfold KeysNodup
    rw [keys_replaceVal]
    exact hnd
  · rw [if_neg hs]
    rw [Option.not_isSome_iff_eq_none] at hs
    unfold KeysNodup
    rw [List.map_append]
    simp only [List.map_cons, List.map_nil]
    rw [List.nodup_append]
    refine ⟨hnd, List.nodup_singleton k, ?_⟩
    intro a ha hb
    have hak : a = k := by simpa using hb
    obtain ⟨p, hp, hpk⟩ := List.mem_map.mp ha
    exact (mget_eq_none_iff m k).mp hs p hp (hpk.trans hak)

theorem mget_mdel_self {α : Type} (m : List (String × α)) (k : String) :
    mget (mdel m k) k = none := by
  rw [mget_eq_none_iff]
  intro p hp
  have := List.of_mem_filter hp
  simpa using this

theorem mget_mdel_ne {α : Type} (m : List (String × α)) (k k2 : String)
    (h : k2 ≠ k) : mget (mdel m k) k2 = mget m k2 := by
  induction m with
  | nil => rfl
  | cons hd tl ih =>
    by_cases hk : hd.1 = k
    · have hne : hd.1 ≠ k2 := fun hh => h (hh ▸ hk ▸ rfl)
      have : mdel (hd :: tl) k = mdel tl k := by
        simp [mdel, List.filter, hk]
      rw [this, mget, if_neg hne] at *
      exact ih
    · have : mdel (hd :: tl) k = hd :: mdel tl k := by
        simp [mdel, List.filter, hk]
      rw [this]
      by_cases hk2 : hd.1 = k2
      · rw [mget, if_pos hk2, mget, if_pos hk2]
      · rw [mget, if_neg hk2, mget, if_neg hk2]
        exact ih

theorem mdel_eq_self {α : Type} {m : List (String × α)} {k : String}
    (h : mget m k = none) : mdel m k = m := by
  apply List.filter_eq_self.mpr
  intro p hp
  simpa using (mget_eq_none_iff m k).mp h p hp

theorem keysNodup_mdel {α : Type} {m : List (String × α)} (k : String)
    (hnd : KeysNodup m) : KeysNodup (mdel m k) := by
  unfold KeysNodup at hnd ⊢
  have hsub : (mdel m k).map Prod.fst |>.Sublist (m.map Prod.fst) :=
    List.Sublist.map Prod.fst (List.filter_sublist m)
  exact hsub.nodup hnd

theorem mget_append_of_some {α : Type} {m : List (String × α)} {k : String} {v : α}
    (l : List (String × α)) (h : mget m k = some v) :
    mget (m ++ l) k = some v := by
  induction m with
  | nil => simp [mget] at h
  | cons hd tl ih =>
    rcases hd with ⟨k1, v1⟩
    rw [mget_cons] at h
    rw [List.cons_append, mget_cons]
    by_cases hk : k1 = k
    · rw [if_pos hk] at h ⊢; exact h
    · rw [if_neg hk] at h ⊢; exact ih h

theorem replaceVal_replaceVal {α : Type} (m : List (String × α)) (k : String) (v1 v2 : α) :
    replaceVal (replaceVal m k v1) k v2 = replaceVal m k v2 := by
  induction m with
  | nil => rfl
  | cons hd tl ih =>
    rcases hd with ⟨k1, w⟩
    rw [replaceVal_cons]
    by_cases hk : k1 = k
    · rw [if_pos hk, replaceVal_cons, if_pos rfl, replaceVal_cons, if_pos hk, ih]
    · rw [if_neg hk, replaceVal_cons, if_neg hk, replaceVal_cons, if_neg hk, ih]

theorem replaceVal_append {α : Type} (a b : List (String × α)) (k : String) (v : α) :
    replaceVal (a ++ b) k v = replaceVal a k v ++ replaceVal b k v := by
  unfold replaceVal
  exact List.map_append _ a b

theorem mset_of_isSome {α : Type} {m : List (String × α)} {k : String} (v : α)
    (h : (mget m k).isSome) : mset m k v = replaceVal m k v := by
  unfold mset; rw [if_pos h]

theorem mset_of_none {α : Type} {m : List (String × α)} {k : String} (v : α)
    (h : mget m k = none) : mset m k v = m ++ [(k, v)] := by
  unfold mset; rw [h]; rfl

theorem mset_mset {α : Type} (m : List (String × α)) (k : String) (v1 v2 : α) :
    mset (mset m k v1) k v2 = mset m k v2 := by
  have h2 : (mget (mset m k v1) k).isSome := by rw [mget_mset_self]; rfl
  rw [mset_of_isSome v2 h2]
  by_cases hs : (mget m k).isSome
  · rw [mset_of_isSome v1 hs, replaceVal_replaceVal, mset_of_isSome v2 hs]
  · rw [Option.not_isSome_iff_eq_none] at hs
    rw [mset_of_none v1 hs, replaceVal_append, replaceVal_of_mget_none v2 hs,
      mset_of_none v2 hs]
    rw [show replaceVal [(k, v1)] k v2 = [(k, v2)] by
      rw [replaceVal_cons, if_pos rfl]; rfl]

/-! ## Lemmas about the Redis set store -/

theorem mem_sAdd (s : List String) (x y : String) :
    y ∈ sAdd s x ↔ y ∈ s ∨ y = x := by
  unfold sAdd
  by_cases hx : x ∈ s
  · simp only [if_pos hx]
    constructor
    · exact Or.inl
    · rintro (h | rfl)
      · exact h
      · exact hx
  · simp [if_neg hx]

theorem nodup_sAdd {s : List String} (x : String) (h : s.Nodup) :
    (sAdd s x).Nodup := by
  unfold sAdd
  by_cases hx : x ∈ s
  · simpa [hx]
  · simp [hx, List.nodup_append, h]

theorem ssMembers_ssAdd_self (m : List (String × List String)) (k x : String) :
    ssMembers (ssAdd m k x) k = sAdd (ssMembers m k) x := by
  unfold ssAdd ssMembers
  cases hm : mget m k with
  | none =>
    rw [mget_append_of_none _ hm, mget_cons, if_pos rfl]
    simp [sAdd]
  | some s =>
    by_cases hx : x ∈ s
    · simp [hx, hm, sAdd]
    · simp [hx, mget_mset_self, sAdd]

theorem ssMembers_ssAdd_ne (m : List (String × List String)) (k k2 x : String)
    (h : k2 ≠ k) : ssMembers (ssAdd m k x) k2 = ssMembers m k2 := by
  unfold ssAdd ssMembers
  cases hm : mget m k with
  | none =>
    cases hm2 : mget m k2 with
    | none =>
      rw [mget_append_of_none _ hm2, mget_cons, if_neg (fun hh => h hh.symm)]
      rfl
    | some w => rw [mget_append_of_some _ hm2]
  | some s =>
    by_cases hx : x ∈ s
    · simp [hx]
    · simp [hx, mget_mset_ne m k k2 _ h]

theorem ssMembers_ssRem_self (m : List (String × List String)) (k x : String) :
    ssMembers (ssRem m k x) k = (ssMembers m k).filter (fun y => y ≠ x) := by
  unfold ssRem ssMembers
  cases hm : mget m k with
  | none => simp [hm]
  | some s =>
    simp only [Option.getD_some]
    by_cases he : ((s.filter (fun y => y ≠ x)).isEmpty : Bool)
    · simp only [he, if_pos, mget_mdel_self, Option.getD_none]
      rw [List.isEmpty_iff] at he
      exact he.symm
    · simp only [he, Bool.false_eq_true, if_neg, not_false_eq_true, mget_mset_self,
        Option.getD_some]

theorem ssMembers_ssRem_ne (m : List (String × List String)) (k k2 x : String)
    (h : k2 ≠ k) : ssMembers (ssRem m k x) k2 = ssMembers m k2 := by
  unfold ssRem ssMembers
  cases hm : mget m k with
  | none => simp
  | some s =>
    by_cases he : ((s.filter (fun y => y ≠ x)).isEmpty : Bool)
    · simp only [he, if_pos]
      rw [mget_mdel_ne m k k2 h]
    · simp only [he, Bool.false_eq_true, if_neg, not_false_eq_true]
      rw [mget_mset_ne m k k2 _ h]

theorem not_mem_ssMembers_ssRem (m : List (String × List String)) (k x : String) :
    x ∉ ssMembers (ssRem m k x) k := by
  rw [ssMembers_ssRem_self]
  intro hx
  have := List.of_mem_filter hx
  simp at this

/-- Adding a member that was absent and then removing it restores the
store, provided the keys are distinct and the key does not hold an
(un-Redis-like) empty set. -/
theorem ssRem_ssAdd_cancel {m : List (String × List String)} {k x : String}
    (hnd : KeysNodup m) (hx : x ∉ ssMembers m k) (hne : mget m k ≠ some []) :
    ssRem (ssAdd m k x) k x = m := by
  unfold ssAdd
  cases hm : mget m k with
  | none =>
    have hget : mget (m ++ [(k, [x])]) k = some [x] := by
      rw [mget_append_of_none _ hm, mget_cons, if_pos rfl]
    unfold ssRem
    rw [hget]
    have hfil : ([x] : List String).filter (fun y => y ≠ x) = [] := by simp
    simp only [hfil, List.isEmpty_nil, if_pos]
    unfold mdel
    rw [List.filter_append]
    have h1 : m.filter (fun p => p.1 ≠ k) = m := mdel_eq_self hm
    have h2 : ([(k, [x])] : List (String × List String)).filter (fun p => p.1 ≠ k) = [] := by
      simp
    rw [h1, h2, List.append_nil]
  | some s =>
    have hxs : x ∉ s := by
      intro hmem
      exact hx (by unfold ssMembers; rw [hm]; simpa using hmem)
    simp only [hxs, if_neg, not_false_eq_true]
    unfold ssRem
    rw [mget_mset_self]
    have hfil : (s ++ [x]).filter (fun y => y ≠ x) = s := by
      rw [List.filter_append]
      have h2 : ([x] : List String).filter (fun y => y ≠ x) = [] := by simp
      have h1 : s.filter (fun y => y ≠ x) = s := by
        apply List.filter_eq_self.mpr
        intro y hy
        simp only [ne_eq, decide_not, Bool.not_eq_true', decide_eq_false_iff_not]
        exact fun hyx => hxs (hyx ▸ hy)
      rw [h1, h2, List.append_nil]
    simp only [hfil]
    have hsne : s ≠ [] := fun hnil => hne (hnil ▸ hm)
    have hie : (s.isEmpty : Bool) = false := by
      cases s with
      | nil => exact absurd rfl hsne
      | cons a l => rfl
    simp only [hie, Bool.false_eq_true, if_neg, not_false_eq_true]
    rw [mset_mset]
    exact mset_eq_self hnd hm

/-! ## The shared directory (`core/node-manager.js`)

The Redis keyspace owned by `NodeManager`, grouped by key pattern:
`websocket:client:<id>:node` (string), `websocket:node:<id>:clients`,
`websocket:client:<id>:channels`, `websocket:channel:<ch>:nodes`,
`websocket:node:<id>:channels` (sets) and
`websocket:client:<id>:metadata` (hash).  Node info and heartbeat keys
are not modelled; no claim mentions them. -/

structure Dir where
  clientNode : List (String × String)
  nodeClients : List (String × List String)
  clientChannels : List (String × List String)
  channelNodes : List (String × List String)
  nodeChannels : List (String × List String)
  clientMetadata : List (String × List (String × String))
deriving DecidableEq, Repr

/-- `HSET` with an object argument: each field is written, existing
fields not mentioned are kept. -/
def hSetAll (h fields : List (String × String)) : List (String × String) :=
  fields.foldl (fun acc p => mset acc p.1 p.2) h

/-- `NodeManager.registerClient` (Redis present, no call fails). -/
def registerClient (d : Dir) (self clientId : String)
    (metadata : List (String × String)) : Dir :=
  let d1 := { d with
    clientNode := mset d.clientNode clientId self,
    nodeClients := ssAdd d.nodeClients self clientId }
  if metadata.isEmpty then d1
  else { d1 with
    clientMetadata := mset d1.clientMetadata clientId
      (hSetAll ((mget d1.clientMetadata clientId).getD []) metadata) }

/-- `NodeManager.unregisterClient` (Redis present, no call fails). -/
def unregisterClient (d : Dir) (self clientId : String) : Dir :=
  { d with
    clientNode := mdel d.clientNode clientId,
    nodeClients := ssRem d.nodeClients self clientId,
    clientMetadata := mdel d.clientMetadata clientId }

/-- `NodeManager.subscribeClientToChannel` (Redis present). -/
def subscribeClientToChannel (d : Dir) (self clientId channel : String) : Dir :=
  { d with
    channelNodes := ssAdd d.channelNodes channel self,
    nodeChannels := ssAdd d.nodeChannels self channel,
    clientChannels := ssAdd d.clientChannels clientId channel }

/-- `NodeManager.unsubscribeClientFromChannel` (Redis present):
removes the client subscription, then drops this node from the channel
maps when no client of this node still has the channel. -/
def unsubscribeClientFromChannel (d : Dir) (self clientId channel : String) : Dir :=
  let d1 := { d with clientChannels := ssRem d.clientChannels clientId channel }
  let nodeClients := ssMembers d1.nodeClients self
  let hasChannelClients :=
    nodeClients.any (fun c => decide (channel ∈ ssMembers d1.clientChannels c))
  if hasChannelClients then d1
  else { d1 with
    channelNodes := ssRem d1.channelNodes channel self,
    nodeChannels := ssRem d1.nodeChannels self channel }

/-- `NodeManager.getNodesForChannel`.  `redis = none` models standalone
mode (`this.redis` null); `raise = true` models the `SMEMBERS` call
throwing, which the catch block turns into `[this.nodeId]`. -/
def getNodesForChannel (redis : Option Dir) (raise : Bool) (self channel : String) :
    List String :=
  match redis with
  | none => [self]
  | some d =>
    if raise then [self]
    else
      let nodes := ssMembers d.channelNodes channel
      if nodes.length > 0 then nodes else [self]

/-! ## `MessageRouter.sendToChannel` (`core/message-router.js`) -/

/-- The envelope published on `websocket:route:<channel>` (the fields a
claim can observe; `message` is the opaque payload). -/
structure Envelope where
  channel : String
  message : String
  excludeClientId : Option String
  fromNode : String
  targetNodes : List String
deriving DecidableEq, Repr

inductive SendOutcome
  | localFanout
  | dropped
  | published (redisChannel : String) (env : Envelope)
deriving DecidableEq, Repr

/-- `MessageRouter.sendToChannel`: no publisher falls back to local
fan-out; an empty node list drops the message; otherwise one envelope
is published on `websocket:route:<channel>`. -/
def sendToChannel (publisher : Bool) (redis : Option Dir) (raise : Bool)
    (self channel message : String) (excludeClientId : Option String) : SendOutcome :=
  if !publisher then SendOutcome.localFanout
  else
    let targetNodes := getNodesForChannel redis raise self channel
    if targetNodes.length = 0 then SendOutcome.dropped
    else
      SendOutcome.published ("websocket:route:" ++ channel)
        { channel := channel, message := message, excludeClientId := excludeClientId,
          fromNode := self, targetNodes := targetNodes }

theorem getNodesForChannel_ne_nil (redis : Option Dir) (raise : Bool)
    (self channel : String) : getNodesForChannel redis raise self channel ≠ [] := by
  unfold getNodesForChannel
  cases redis with
  | none => simp
  | some d =>
    by_cases hr : raise
    · simp [hr]
    · simp only [hr, Bool.false_eq_true, if_neg, not_false_eq_true]
      cases hn : ssMembers d.channelNodes channel with
      | nil => simp
      | cons a l => simp

/-- Claim C9: `getNodesForChannel` never returns an empty list — it
substitutes `[self]` in standalone mode, on an error, and when the
directory set is empty — so the empty-list drop branch of
`sendToChannel` is unreachable. -/
theorem c9_getNodesForChannel_nonempty (redis : Option Dir) (raise : Bool)
    (self channel message : String) (excl : Option String) (d : Dir) :
    getNodesForChannel redis raise self channel ≠ [] ∧
    getNodesForChannel none raise self channel = [self] ∧
    getNodesForChannel (some d) true self channel = [self] ∧
    getNodesForChannel (some d) false self channel =
      (if ssMembers d.channelNodes channel = [] then [self]
       else ssMembers d.channelNodes channel) ∧
    sendToChannel true redis raise self channel message excl ≠ SendOutcome.dropped := by
  refine ⟨getNodesForChannel_ne_nil redis raise self channel, rfl, rfl, ?_, ?_⟩
  · unfold getNodesForChannel
    cases hn : ssMembers d.channelNodes channel with
    | nil => simp [hn]
    | cons a l => simp [hn]
  · unfold sendToChannel
    have hne := getNodesForChannel_ne_nil redis raise self channel
    have hlen : (getNodesForChannel redis raise self channel).length ≠ 0 := by
      intro h0
      exact hne (List.length_eq_zero.mp h0)
    simp [hlen]

/-- The directory state of claim C1's counterexample: no node serves
channel `c` (the whole directory is empty). -/
def c1Dir : Dir :=
  { clientNode := [], nodeClients := [], clientChannels := [],
    channelNodes := [], nodeChannels := [], clientMetadata := [] }

/-- Claim C1, counterexample: with the publisher connected and no node
serving channel `c` at publish time, `sendToChannel` does NOT drop the
message — it publishes an envelope on `websocket:route:c` targeting
this node itself. -/
theorem c1_counterexample :
    ssMembers c1Dir.channelNodes "c" = [] ∧
    sendToChannel true (some c1Dir) false "node-1" "c" "payload" none =
      SendOutcome.published "websocket:route:c"
        { channel := "c", message := "payload", excludeClientId := none,
          fromNode := "node-1", targetNodes := ["node-1"] } := by
  constructor
  · rfl
  · rfl

/-- Claim C1 as amended: with the publisher connected, `sendToChannel`
always publishes exactly one envelope on `websocket:route:<channel>`
carrying `getNodesForChannel`'s answer as `targetNodes`; when the
directory set for the channel is empty the node list is `[self]`, so
the message is published rather than dropped (the drop branch would
fire only on an empty node list, which `getNodesForChannel` never
returns). -/
theorem c1_sendToChannel_publishes (redis : Option Dir) (raise : Bool)
    (self channel message : String) (excl : Option String) (d : Dir) :
    sendToChannel true redis raise self channel message excl =
      SendOutcome.published ("websocket:route:" ++ channel)
        { channel := channel, message := message, excludeClientId := excl,
          fromNode := self,
          targetNodes := getNodesForChannel redis raise self channel } ∧
    getNodesForChannel (some d) false self channel =
      (if ssMembers d.channelNodes channel = [] then [self]
       else ssMembers d.channelNodes channel) := by
  constructor
  · unfold sendToChannel
    have hne := getNodesForChannel_ne_nil redis raise self channel
    have hlen : (getNodesForChannel redis raise self channel).length ≠ 0 := by
      intro h0
      exact hne (List.length_eq_zero.mp h0)
    simp [hlen]
  · unfold getNodesForChannel
    cases hn : ssMembers d.channelNodes channel with
    | nil => simp [hn]
    | cons a l => simp [hn]

/-! ## Claim C6: subscribe / unsubscribe round trip on the directory -/

/-- The directory state of claim C6's counterexample: client `C` is
registered on node `n1` and subscribed to no channel, but the node is
(stale-ly) recorded as serving channel `c`. -/
def c6Dir : Dir :=
  { clientNode := [("C", "n1")], nodeClients := [("n1", ["C"])],
    clientChannels := [], channelNodes := [("c", ["n1"])],
    nodeChannels := [("n1", ["c"])], clientMetadata := [] }

/-- Claim C6, counterexample: in `c6Dir` the client `C` is registered
and no local client subscribes channel `c`, yet subscribe followed by
unsubscribe does not restore the directory — the unsubscribe repairs
the stale channel-node entry, so the final state differs from the
initial one. -/
theorem c6_counterexample :
    mget c6Dir.clientNode "C" = some "n1" ∧
    "C" ∈ ssMembers c6Dir.nodeClients "n1" ∧
    (∀ cl ∈ ssMembers c6Dir.nodeClients "n1",
      "c" ∉ ssMembers c6Dir.clientChannels cl) ∧
    unsubscribeClientFromChannel
      (subscribeClientToChannel c6Dir "n1" "C" "c") "n1" "C" "c" ≠ c6Dir := by
  refine ⟨rfl, by decide, by decide, ?_⟩
  decide

/-- Claim C6 as amended: if moreover the directory holds no stale
record for `(self, c)` — `self` is not in channel `c`'s node set and
`c` is not in `self`'s channel set — and the directory is a valid
Redis state (distinct keys, no key holding an empty set), then
subscribe followed by unsubscribe restores the directory exactly. -/
theorem c6_roundtrip (d : Dir) (self cid c : String)
    (hndCC : KeysNodup d.clientChannels)
    (hndCN : KeysNodup d.channelNodes)
    (hndNC : KeysNodup d.nodeChannels)
    (hwfCC : mget d.clientChannels cid ≠ some [])
    (hwfCN : mget d.channelNodes c ≠ some [])
    (hwfNC : mget d.nodeChannels self ≠ some [])
    (hReg : cid ∈ ssMembers d.nodeClients self)
    (hNoLocal : ∀ cl ∈ ssMembers d.nodeClients self, c ∉ ssMembers d.clientChannels cl)
    (hNoSelf : self ∉ ssMembers d.channelNodes c)
    (hNoCh : c ∉ ssMembers d.nodeChannels self) :
    unsubscribeClientFromChannel (subscribeClientToChannel d self cid c) self cid c = d := by
  have hxCC : c ∉ ssMembers d.clientChannels cid := hNoLocal cid hReg
  have hCC : ssRem (ssAdd d.clientChannels cid c) cid c = d.clientChannels :=
    ssRem_ssAdd_cancel hndCC hxCC hwfCC
  have hCN : ssRem (ssAdd d.channelNodes c self) c self = d.channelNodes :=
    ssRem_ssAdd_cancel hndCN hNoSelf hwfCN
  have hNC : ssRem (ssAdd d.nodeChannels self c) self c = d.nodeChannels :=
    ssRem_ssAdd_cancel hndNC hNoCh hwfNC
  unfold subscribeClientToChannel unsubscribeClientFromChannel
  simp only [hCC]
  have hAny : (ssMembers d.nodeClients self).any
      (fun c2 => decide (c ∈ ssMembers d.clientChannels c2)) = false := by
    rw [List.any_eq_false]
    intro cl hcl
    simpa using hNoLocal cl hcl
  simp only [hAny, Bool.false_eq_true, if_neg, not_false_eq_true, hCN, hNC]

/-- Witness: on a clean one-client directory, the round trip of
claim C6 restores the state exactly. -/
theorem c6_roundtrip_witness :
    unsubscribeClientFromChannel
      (subscribeClientToChannel
        { clientNode := [("C", "n1")], nodeClients := [("n1", ["C"])],
          clientChannels := [], channelNodes := [], nodeChannels := [],
          clientMetadata := [] } "n1" "C" "c") "n1" "C" "c" =
      { clientNode := [("C", "n1")], nodeClients := [("n1", ["C"])],
        clientChannels := [], channelNodes := [], nodeChannels := [],
        clientMetadata := [] } :=
  c6_roundtrip _ "n1" "C" "c" (by decide) (by decide) (by decide) (by decide)
    (by decide) (by decide) (by decide) (by decide) (by decide) (by decide)

/-! ## The message router's in-process state (`core/message-router.js`)

`localClients` maps a client id to its connection record (the
WebSocket handle itself is not representable; `metadata` and the
`channels` set are).  `subscribedChannels` is the set of logical
channels whose `websocket:route:<channel>` topic this process is
subscribed to on the Redis subscriber connection. -/

structure LocalClient where
  metadata : List (String × String)
  channels : List String
deriving DecidableEq, Repr

structure Router where
  localClients : List (String × LocalClient)
  subscribedChannels : List String
deriving DecidableEq, Repr

/-- One gateway process: its router state plus the shared directory. -/
structure Sys where
  router : Router
  dir : Dir
deriving DecidableEq, Repr

def initSys : Sys :=
  { router := { localClients := [], subscribedChannels := [] },
    dir := { clientNode := [], nodeClients := [], clientChannels := [],
             channelNodes := [], nodeChannels := [], clientMetadata := [] } }

/-- `MessageRouter.registerLocalClient`. -/
def registerLocalClient (self : String) (s : Sys) (clientId : String)
    (metadata : List (String × String)) : Sys :=
  { router := { s.router with
      localClients := mset s.router.localClients clientId
        { metadata := metadata, channels := [] } },
    dir := registerClient s.dir self clientId metadata }

/-- `MessageRouter.subscribeToRedisChannel` (subscriber connected). -/
def subscribeToRedisChannel (r : Router) (channel : String) : Router :=
  if channel ∈ r.subscribedChannels then r
  else { r with subscribedChannels := sAdd r.subscribedChannels channel }

/-- `MessageRouter.unsubscribeFromRedisChannel` (subscriber connected). -/
def unsubscribeFromRedisChannel (r : Router) (channel : String) : Router :=
  if channel ∉ r.subscribedChannels then r
  else { r with
    subscribedChannels := r.subscribedChannels.filter (fun y => y ≠ channel) }

/-- `MessageRouter.subscribeToChannel`: unknown clients are rejected;
otherwise the channel is added to the client's set, the directory is
updated, and the route topic is subscribed if it was not already. -/
def subscribeToChannel (self : String) (s : Sys) (clientId channel : String) : Sys :=
  match mget s.router.localClients clientId with
  | none => s
  | some client =>
    let client2 : LocalClient := { client with channels := sAdd client.channels channel }
    let r1 : Router := { s.router with
      localClients := mset s.router.localClients clientId client2 }
    let d1 : Dir := subscribeClientToChannel s.dir self clientId channel
    let r2 : Router := if channel ∈ r1.subscribedChannels then r1
              else subscribeToRedisChannel r1 channel
    { router := r2, dir := d1 }

/-- `MessageRouter.unsubscribeFromChannel`: removes the channel from
the client's set, updates the directory, and drops the route topic
subscription when no local client still has the channel. -/
def unsubscribeFromChannel (self : String) (s : Sys) (clientId channel : String) : Sys :=
  match mget s.router.localClients clientId with
  | none => s
  | some client =>
    let client2 : LocalClient := { client with
      channels := client.channels.filter (fun y => y ≠ channel) }
    let r1 : Router := { s.router with
      localClients := mset s.router.localClients clientId client2 }
    let d1 : Dir := unsubscribeClientFromChannel s.dir self clientId channel
    let stillNeeded : Bool :=
      r1.localClients.any (fun p => decide (channel ∈ p.2.channels))
    let r2 : Router := if stillNeeded then r1 else unsubscribeFromRedisChannel r1 channel
    { router := r2, dir := d1 }

/-- `MessageRouter.unregisterLocalClient`: unsubscribe the client from
each of its channels, then remove it locally and from the directory.
Unknown clients make the call a no-op. -/
def unregisterLocalClient (self : String) (s : Sys) (clientId : String) : Sys :=
  match mget s.router.localClients clientId with
  | none => s
  | some client =>
    let s1 := client.channels.foldl
      (fun acc ch => unsubscribeFromChannel self acc clientId ch) s
    { router := { s1.router with
        localClients := mdel s1.router.localClients clientId },
      dir := unregisterClient s1.dir self clientId }

/-- The state-changing public router operations. -/
inductive ROp
  | register (clientId : String) (metadata : List (String × String))
  | subscribe (clientId channel : String)
  | unsubscribe (clientId channel : String)
  | unregister (clientId : String)
deriving DecidableEq, Repr

def applyROp (self : String) (s : Sys) : ROp → Sys
  | ROp.register cid md => registerLocalClient self s cid md
  | ROp.subscribe cid ch => subscribeToChannel self s cid ch
  | ROp.unsubscribe cid ch => unsubscribeFromChannel self s cid ch
  | ROp.unregister cid => unregisterLocalClient self s cid

/-- Run a sequence of router operations from the fresh process state. -/
def runOps (self : String) (ops : List ROp) : Sys :=
  ops.foldl (applyROp self) initSys

/-- Some local client has the channel in its channel set. -/
def clientHasChannel (r : Router) (ch : String) : Prop :=
  ∃ p ∈ r.localClients, ch ∈ p.2.channels

instance (r : Router) (ch : String) : Decidable (clientHasChannel r ch) := by
  unfold clientHasChannel
  infer_instance

/-- The router invariant behind claim C4: the subscribed-channel set
has no duplicates, and every channel some local client holds is
subscribed. -/
def RouterInv1 (r : Router) : Prop :=
  r.subscribedChannels.Nodup ∧
  ∀ ch, clientHasChannel r ch → ch ∈ r.subscribedChannels

theorem unsubRedis_localClients (r : Router) (ch : String) :
    (unsubscribeFromRedisChannel r ch).localClients = r.localClients := by
  unfold unsubscribeFromRedisChannel
  by_cases h : ch ∉ r.subscribedChannels
  · rw [if_pos h]
  · rw [if_neg h]

theorem inv1_registerLocalClient (self : String) (s : Sys) (cid : String)
    (md : List (String × String)) (h : RouterInv1 s.router) :
    RouterInv1 (registerLocalClient self s cid md).router := by
  obtain ⟨hnd, himp⟩ := h
  refine ⟨hnd, ?_⟩
  rintro ch ⟨p, hp, hch⟩
  simp only [registerLocalClient] at hp
  rcases mem_mset hp with rfl | hp2
  · simp at hch
  · exact himp ch ⟨p, hp2, hch⟩

theorem inv1_subscribeToChannel (self : String) (s : Sys) (cid ch : String)
    (h : RouterInv1 s.router) : RouterInv1 (subscribeToChannel self s cid ch).router := by
  obtain ⟨hnd, himp⟩ := h
  unfold subscribeToChannel
  cases hc : mget s.router.localClients cid with
  | none => exact ⟨hnd, himp⟩
  | some client =>
    dsimp only
    by_cases hmem : ch ∈ s.router.subscribedChannels
    · rw [if_pos hmem]
      refine ⟨hnd, ?_⟩
      rintro ch2 ⟨p, hp, hch⟩
      rcases mem_mset hp with rfl | hp2
      · rcases (mem_sAdd client.channels ch ch2).mp hch with h2 | rfl
        · exact himp ch2 ⟨(cid, client), mget_mem hc, h2⟩
        · exact hmem
      · exact himp ch2 ⟨p, hp2, hch⟩
    · rw [if_neg hmem]
      unfold subscribeToRedisChannel
      rw [if_neg hmem]
      refine ⟨nodup_sAdd ch hnd, ?_⟩
      rintro ch2 ⟨p, hp, hch⟩
      rcases mem_mset hp with rfl | hp2
      · rcases (mem_sAdd client.channels ch ch2).mp hch with h2 | rfl
        · exact (mem_sAdd _ ch ch2).mpr (Or.inl (himp ch2 ⟨(cid, client), mget_mem hc, h2⟩))
        · exact (mem_sAdd _ ch2 ch2).mpr (Or.inr rfl)
      · exact (mem_sAdd _ ch ch2).mpr (Or.inl (himp ch2 ⟨p, hp2, hch⟩))

theorem inv1_unsubscribeFromChannel (self : String) (s : Sys) (cid ch : String)
    (h : RouterInv1 s.router) : RouterInv1 (unsubscribeFromChannel self s cid ch).router := by
  obtain ⟨hnd, himp⟩ := h
  unfold unsubscribeFromChannel
  cases hc : mget s.router.localClients cid with
  | none => exact ⟨hnd, himp⟩
  | some client =>
    dsimp only
    set client2 : LocalClient :=
      { client with channels := client.channels.filter (fun y => y ≠ ch) } with hcl2
    set lc2 := mset s.router.localClients cid client2 with hlc2
    by_cases hstill : (lc2.any (fun p => decide (ch ∈ p.2.channels)) : Bool)
    · rw [if_pos hstill]
      refine ⟨hnd, ?_⟩
      rintro ch2 ⟨p, hp, hch⟩
      rcases mem_mset hp with rfl | hp2
      · have hch2 := List.mem_of_mem_filter hch
        exact himp ch2 ⟨(cid, client), mget_mem hc, hch2⟩
      · exact himp ch2 ⟨p, hp2, hch⟩
    · rw [if_neg hstill]
      unfold unsubscribeFromRedisChannel
      by_cases hmem : ch ∉ s.router.subscribedChannels
      · rw [if_pos hmem]
        refine ⟨hnd, ?_⟩
        rintro ch2 ⟨p, hp, hch⟩
        rcases mem_mset hp with rfl | hp2
        · exact himp ch2 ⟨(cid, client), mget_mem hc, List.mem_of_mem_filter hch⟩
        · exact himp ch2 ⟨p, hp2, hch⟩
      · rw [if_neg hmem]
        refine ⟨List.Nodup.filter _ hnd, ?_⟩
        rintro ch2 ⟨p, hp, hch⟩
        have hne : ch2 ≠ ch := by
          rintro rfl
          rw [Bool.not_eq_true, List.any_eq_false] at hstill
          exact absurd hch (by simpa using hstill p hp)
        have hin : ch2 ∈ s.router.subscribedChannels := by
          rcases mem_mset hp with rfl | hp2
          · exact himp ch2 ⟨(cid, client), mget_mem hc, List.mem_of_mem_filter hch⟩
          · exact himp ch2 ⟨p, hp2, hch⟩
        exact List.mem_filter.mpr ⟨hin, by simpa using hne⟩

theorem inv1_foldUnsub (self cid : String) (L : List String) :
    ∀ s : Sys, RouterInv1 s.router →
      RouterInv1 ((L.foldl (fun acc ch => unsubscribeFromChannel self acc cid ch) s)).router := by
  induction L with
  | nil => intro s h; exact h
  | cons ch rest ih =>
    intro s h
    rw [List.foldl_cons]
    exact ih _ (inv1_unsubscribeFromChannel self s cid ch h)

theorem inv1_unregisterLocalClient (self : String) (s : Sys) (cid : String)
    (h : RouterInv1 s.router) : RouterInv1 (unregisterLocalClient self s cid).router := by
  unfold unregisterLocalClient
  cases hc : mget s.router.localClients cid with
  | none => exact h
  | some client =>
    dsimp only
    have h1 := inv1_foldUnsub self cid client.channels s h
    refine ⟨h1.1, ?_⟩
    rintro ch ⟨p, hp, hch⟩
    exact h1.2 ch ⟨p, List.mem_of_mem_filter hp, hch⟩

theorem inv1_applyROp (self : String) (s : Sys) (op : ROp)
    (h : RouterInv1 s.router) : RouterInv1 (applyROp self s op).router := by
  cases op with
  | register cid md => exact inv1_registerLocalClient self s cid md h
  | subscribe cid ch => exact inv1_subscribeToChannel self s cid ch h
  | unsubscribe cid ch => exact inv1_unsubscribeFromChannel self s cid ch h
  | unregister cid => exact inv1_unregisterLocalClient self s cid h

theorem runOps_inv (self : String) (ops : List ROp) :
    RouterInv1 (runOps self ops).router := by
  have hstep : ∀ (l : List ROp) (s : Sys), RouterInv1 s.router →
      RouterInv1 (l.foldl (applyROp self) s).router := by
    intro l
    induction l with
    | nil => intro s h; exact h
    | cons op rest ih =>
      intro s h
      rw [List.foldl_cons]
      exact ih _ (inv1_applyROp self s op h)
  exact hstep ops initSys ⟨List.nodup_nil, by rintro ch ⟨p, hp, hch⟩; simp [initSys] at hp⟩

theorem unsubscribeFromChannel_route_iff (self : String) (s : Sys) (cid ch : String)
    (client : LocalClient) (hc : mget s.router.localClients cid = some client)
    (hsub : ch ∈ s.router.subscribedChannels) :
    (ch ∈ (unsubscribeFromChannel self s cid ch).router.subscribedChannels ↔
      clientHasChannel (unsubscribeFromChannel self s cid ch).router ch) := by
  unfold unsubscribeFromChannel
  rw [hc]
  dsimp only
  set client2 : LocalClient :=
    { client with channels := client.channels.filter (fun y => y ≠ ch) } with hcl2
  set lc2 := mset s.router.localClients cid client2 with hlc2
  by_cases hstill : (lc2.any (fun p => decide (ch ∈ p.2.channels)) : Bool)
  · rw [if_pos hstill]
    constructor
    · intro _
      rw [List.any_eq_true] at hstill
      obtain ⟨p, hp, hdec⟩ := hstill
      exact ⟨p, hp, by simpa using hdec⟩
    · intro _
      exact hsub
  · rw [if_neg hstill]
    unfold unsubscribeFromRedisChannel
    rw [if_neg (by simpa using hsub)]
    constructor
    · intro hmem
      exact absurd (List.of_mem_filter hmem) (by simp)
    · rintro ⟨p, hp, hch⟩
      rw [Bool.not_eq_true, List.any_eq_false] at hstill
      exact absurd hch (by simpa using hstill p hp)

/-- Claim C4: after any sequence of router operations, a channel held
by at least one local client appears exactly once in the process's
route-channel subscription set, and `unsubscribeFromChannel` leaves
the route subscription for the channel present iff some local client
still has the channel in its set. -/
theorem c4_route_subscription (self : String) (ops : List ROp) (ch cid : String) :
    (clientHasChannel (runOps self ops).router ch →
      (runOps self ops).router.subscribedChannels.count ch = 1) ∧
    (∀ client, mget (runOps self ops).router.localClients cid = some client →
      ch ∈ (runOps self ops).router.subscribedChannels →
      (ch ∈ (unsubscribeFromChannel self (runOps self ops) cid ch).router.subscribedChannels ↔
        clientHasChannel (unsubscribeFromChannel self (runOps self ops) cid ch).router ch)) := by
  have hinv := runOps_inv self ops
  constructor
  · intro hch
    exact List.count_eq_one_of_mem hinv.1 (hinv.2 ch hch)
  · intro client hc hsub
    exact unsubscribeFromChannel_route_iff self _ cid ch client hc hsub

/-- Witness for claim C4 on the two-operation sequence
register A, subscribe A to x. -/
theorem c4_route_subscription_witness :
    clientHasChannel (runOps "n1" [ROp.register "A" [], ROp.subscribe "A" "x"]).router "x" ∧
    (runOps "n1" [ROp.register "A" [],
      ROp.subscribe "A" "x"]).router.subscribedChannels.count "x" = 1 ∧
    ("x" ∈ (unsubscribeFromChannel "n1"
        (runOps "n1" [ROp.register "A" [], ROp.subscribe "A" "x"])
        "A" "x").router.subscribedChannels ↔
      clientHasChannel (unsubscribeFromChannel "n1"
        (runOps "n1" [ROp.register "A" [], ROp.subscribe "A" "x"])
        "A" "x").router "x") :=
  ⟨by decide,
   (c4_route_subscription "n1" [ROp.register "A" [], ROp.subscribe "A" "x"] "x" "A").1
     (by decide),
   (c4_route_subscription "n1" [ROp.register "A" [], ROp.subscribe "A" "x"] "x" "A").2
     { metadata := [], channels := ["x"] } (by decide) (by decide)⟩

/-! ## Claim C5: unregistering a client clears its directory entries -/

theorem unsubscribeFromChannel_dir (self : String) (s : Sys) (cid ch : String)
    (client : LocalClient) (hc : mget s.router.localClients cid = some client) :
    (unsubscribeFromChannel self s cid ch).dir =
      unsubscribeClientFromChannel s.dir self cid ch := by
  unfold unsubscribeFromChannel
  rw [hc]

theorem unsubscribeClientFromChannel_clientNode (d : Dir) (self cid ch : String) :
    (unsubscribeClientFromChannel d self cid ch).clientNode = d.clientNode := by
  unfold unsubscribeClientFromChannel
  dsimp only
  split
  · rfl
  · rfl

theorem unsubscribeClientFromChannel_nodeClients (d : Dir) (self cid ch : String) :
    (unsubscribeClientFromChannel d self cid ch).nodeClients = d.nodeClients := by
  unfold unsubscribeClientFromChannel
  dsimp only
  split
  · rfl
  · rfl

theorem unsubscribeClientFromChannel_clientMetadata (d : Dir) (self cid ch : String) :
    (unsubscribeClientFromChannel d self cid ch).clientMetadata = d.clientMetadata := by
  unfold unsubscribeClientFromChannel
  dsimp only
  split
  · rfl
  · rfl

theorem unsubscribeClientFromChannel_clientChannels (d : Dir) (self cid ch : String) :
    (unsubscribeClientFromChannel d self cid ch).clientChannels =
      ssRem d.clientChannels cid ch := by
  unfold unsubscribeClientFromChannel
  dsimp only
  split
  · rfl
  · rfl

theorem unsubscribeFromChannel_localClients (self : String) (s : Sys) (cid ch : String)
    (client : LocalClient) (hc : mget s.router.localClients cid = some client) :
    (unsubscribeFromChannel self s cid ch).router.localClients =
      mset s.router.localClients cid
        { client with channels := client.channels.filter (fun y => y ≠ ch) } := by
  unfold unsubscribeFromChannel
  rw [hc]
  dsimp only
  split
  · rfl
  · rw [unsubRedis_localClients]

/-- Through a fold of channel unsubscriptions for one client the other
directory entries of the client are untouched, the client stays in the
local table, and every channel surviving in the client's directory set
was there before and was not unsubscribed. -/
theorem foldUnsub_parts (self cid : String) (L : List String) :
    ∀ (s : Sys) (client : LocalClient),
    mget s.router.localClients cid = some client →
    (∃ client2, mget ((L.foldl (fun acc ch => unsubscribeFromChannel self acc cid ch)
        s)).router.localClients cid = some client2) ∧
    ((L.foldl (fun acc ch => unsubscribeFromChannel self acc cid ch)
        s)).dir.clientNode = s.dir.clientNode ∧
    ((L.foldl (fun acc ch => unsubscribeFromChannel self acc cid ch)
        s)).dir.nodeClients = s.dir.nodeClients ∧
    ((L.foldl (fun acc ch => unsubscribeFromChannel self acc cid ch)
        s)).dir.clientMetadata = s.dir.clientMetadata ∧
    (∀ y, y ∈ ssMembers ((L.foldl (fun acc ch => unsubscribeFromChannel self acc cid ch)
        s)).dir.clientChannels cid →
      y ∈ ssMembers s.dir.clientChannels cid ∧ y ∉ L) := by
  induction L with
  | nil =>
    intro s client hc
    exact ⟨⟨client, hc⟩, rfl, rfl, rfl, fun y hy => ⟨hy, by simp⟩⟩
  | cons ch rest ih =>
    intro s client hc
    rw [List.foldl_cons]
    have hlc := unsubscribeFromChannel_localClients self s cid ch client hc
    have hdir := unsubscribeFromChannel_dir self s cid ch client hc
    have hc2 : mget (unsubscribeFromChannel self s cid ch).router.localClients cid =
        some { client with channels := client.channels.filter (fun y => y ≠ ch) } := by
      rw [hlc, mget_mset_self]
    obtain ⟨hex, hcn, hnc, hmd, hmem⟩ := ih (unsubscribeFromChannel self s cid ch) _ hc2
    refine ⟨hex, ?_, ?_, ?_, ?_⟩
    · rw [hcn, hdir, unsubscribeClientFromChannel_clientNode]
    · rw [hnc, hdir, unsubscribeClientFromChannel_nodeClients]
    · rw [hmd, hdir, unsubscribeClientFromChannel_clientMetadata]
    · intro y hy
      obtain ⟨hy2, hyrest⟩ := hmem y hy
      rw [hdir, unsubscribeClientFromChannel_clientChannels, ssMembers_ssRem_self] at hy2
      have hf := List.mem_filter.mp hy2
      refine ⟨hf.1, ?_⟩
      intro hcons
      rcases List.mem_cons.mp hcons with rfl | hr
      · have := hf.2
        simp at this
      · exact hyrest hr

/-- Claim C5: after `unregisterLocalClient(C)` no directory entry
references `C` — the client-node mapping and metadata are deleted, `C`
is removed from this node's client set, and `C`'s channel set is empty
(its key deleted) — and a second `unregisterLocalClient(C)` is a
no-op.  The hypothesis ties the directory channel set to the local
record, which every state built through the router operations
satisfies. -/
theorem c5_unregister_clears (self : String) (s : Sys) (cid : String)
    (client : LocalClient)
    (hc : mget s.router.localClients cid = some client)
    (hsub : ∀ y ∈ ssMembers s.dir.clientChannels cid, y ∈ client.channels) :
    mget (unregisterLocalClient self s cid).dir.clientNode cid = none ∧
    cid ∉ ssMembers (unregisterLocalClient self s cid).dir.nodeClients self ∧
    mget (unregisterLocalClient self s cid).dir.clientMetadata cid = none ∧
    ssMembers (unregisterLocalClient self s cid).dir.clientChannels cid = [] ∧
    mget (unregisterLocalClient self s cid).router.localClients cid = none ∧
    unregisterLocalClient self (unregisterLocalClient self s cid) cid =
      unregisterLocalClient self s cid := by
  obtain ⟨hex, hcn, hnc, hmd, hmem⟩ := foldUnsub_parts self cid client.channels s client hc
  have hres : unregisterLocalClient self s cid =
      { router := { (client.channels.foldl
            (fun acc ch => unsubscribeFromChannel self acc cid ch) s).router with
          localClients := mdel (client.channels.foldl
            (fun acc ch => unsubscribeFromChannel self acc cid ch) s).router.localClients cid },
        dir := unregisterClient (client.channels.foldl
          (fun acc ch => unsubscribeFromChannel self acc cid ch) s).dir self cid } := by
    unfold unregisterLocalClient
    rw [hc]
  have hccEmpty : ssMembers (client.channels.foldl
      (fun acc ch => unsubscribeFromChannel self acc cid ch) s).dir.clientChannels cid = [] := by
    rw [List.eq_nil_iff_forall_not_mem]
    intro y hy
    obtain ⟨hy1, hy2⟩ := hmem y hy
    exact hy2 (hsub y hy1)
  rw [hres]
  refine ⟨mget_mdel_self _ _, not_mem_ssMembers_ssRem _ _ _, mget_mdel_self _ _,
    hccEmpty, mget_mdel_self _ _, ?_⟩
  unfold unregisterLocalClient
  rw [show mget (mdel (client.channels.foldl
    (fun acc ch => unsubscribeFromChannel self acc cid ch) s).router.localClients cid) cid =
    none from mget_mdel_self _ _]

/-- The concrete state of claim C5's witness: one client `C` on node
`n1`, subscribed to channel `a`, directory in sync. -/
def c5Sys : Sys :=
  { router := { localClients := [("C", { metadata := [], channels := ["a"] })],
                subscribedChannels := ["a"] },
    dir := { clientNode := [("C", "n1")], nodeClients := [("n1", ["C"])],
             clientChannels := [("C", ["a"])], channelNodes := [("a", ["n1"])],
             nodeChannels := [("n1", ["a"])], clientMetadata := [] } }

theorem c5_unregister_clears_witness :
    mget (unregisterLocalClient "n1" c5Sys "C").dir.clientNode "C" = none ∧
    "C" ∉ ssMembers (unregisterLocalClient "n1" c5Sys "C").dir.nodeClients "n1" ∧
    mget (unregisterLocalClient "n1" c5Sys "C").dir.clientMetadata "C" = none ∧
    ssMembers (unregisterLocalClient "n1" c5Sys "C").dir.clientChannels "C" = [] ∧
    mget (unregisterLocalClient "n1" c5Sys "C").router.localClients "C" = none ∧
    unregisterLocalClient "n1" (unregisterLocalClient "n1" c5Sys "C") "C" =
      unregisterLocalClient "n1" c5Sys "C" :=
  c5_unregister_clears "n1" c5Sys "C" { metadata := [], channels := ["a"] }
    (by decide) (by decide)

/-! ## The chat service (`services/chat-service.js`)

`handleSendMessage` receives the destructured `{channel, message,
metadata}` of the client frame.  `message` can be any JS value, so it
is modelled as a `JVal`; `channel` reaches only truthiness checks and
string-keyed lookups, so it is modelled as an optional string (`none`
for absent). -/

/-- A JavaScript value as far as truthiness and the `typeof ... ===
string` check observe it. -/
inductive JVal
  | vStr (s : String)
  | vNum (n : Int)
  | vBool (b : Bool)
  | vNull
  | vUndef
deriving DecidableEq, Repr

def JVal.truthy : JVal → Bool
  | JVal.vStr s => decide (s ≠ "")
  | JVal.vNum n => decide (n ≠ 0)
  | JVal.vBool b => b
  | JVal.vNull => false
  | JVal.vUndef => false

/-- Truthiness of an absent-or-string field. -/
def optTruthy : Option String → Bool
  | none => false
  | some s => decide (s ≠ "")

/-- The stamped chat message `{id, clientId, channel, message,
metadata, timestamp}`. -/
structure ChatMsg where
  id : String
  clientId : String
  channel : String
  message : String
  metadata : List (String × String)
  timestamp : String
deriving DecidableEq, Repr

structure ChatState where
  clientChannels : List (String × List String)
  channelHistory : List (String × List ChatMsg)
deriving DecidableEq, Repr

/-- `this.maxHistorySize` of the chat service. -/
def chatMaxHistorySize : Nat := 100

/-- What `handleSendMessage` emits: an error frame or the private
`sent` ack through `sendToClient`, or the chat `message` envelope
through `messageRouter.sendToChannel`. -/
inductive ChatOut
  | errorTo (clientId : String) (error : String)
  | sentAck (clientId : String) (messageId : String) (channel : String) (timestamp : String)
  | channelBroadcast (channel : String) (msg : ChatMsg)
deriving DecidableEq, Repr

/-- The stamped message record built by `handleSendMessage`. -/
def stampedChatMsg (newId clientId ch m : String)
    (metadata : List (String × String)) (ts : String) : ChatMsg :=
  { id := newId, clientId := clientId, channel := ch, message := m,
    metadata := metadata, timestamp := ts }

/-- `ChatService.addToChannelHistory`: append, then trim the front so
at most `maxHistorySize` entries remain. -/
def addToChannelHistory (h : List (String × List ChatMsg)) (channel : String)
    (m : ChatMsg) : List (String × List ChatMsg) :=
  let hist := (mget h channel).getD []
  let hist2 := hist ++ [m]
  let hist3 := if hist2.length > chatMaxHistorySize
    then hist2.drop (hist2.length - chatMaxHistorySize) else hist2
  mset h channel hist3

/-- `ChatService.handleSendMessage`.  `newId` and `ts` stand for the
generated message id and the current ISO timestamp. -/
def handleSendMessage (st : ChatState) (clientId : String) (channel : Option String)
    (message : JVal) (metadata : List (String × String)) (newId ts : String) :
    ChatState × List ChatOut :=
  if !(optTruthy channel) || !(message.truthy) then
    (st, [ChatOut.errorTo clientId "Channel and message are required"])
  else
    match message with
    | JVal.vStr m =>
      if (decide (m.length = 0) || decide (m.length > 1000)) then
        (st, [ChatOut.errorTo clientId
          "Message must be a string between 1 and 1000 characters"])
      else
        match mget st.clientChannels clientId with
        | some chans =>
          if channel.getD "" ∈ chans then
            let messageData : ChatMsg :=
              stampedChatMsg newId clientId (channel.getD "") m metadata ts
            ({ st with channelHistory :=
                addToChannelHistory st.channelHistory (channel.getD "") messageData },
             [ChatOut.channelBroadcast (channel.getD "") messageData,
              ChatOut.sentAck clientId newId (channel.getD "") ts])
          else
            (st, [ChatOut.errorTo clientId
              "You must join the channel before sending messages"])
        | none =>
          (st, [ChatOut.errorTo clientId
            "You must join the channel before sending messages"])
    | _ =>
      (st, [ChatOut.errorTo clientId
        "Message must be a string between 1 and 1000 characters"])

/-- The client joined the channel earlier (its channel set records it). -/
def chatJoined (st : ChatState) (clientId ch : String) : Prop :=
  ∃ chans, mget st.clientChannels clientId = some chans ∧ ch ∈ chans

instance (st : ChatState) (clientId ch : String) :
    Decidable (chatJoined st clientId ch) := by
  unfold chatJoined
  infer_instance

/-- Claim C3: chat `send` (i) without a prior `join` returns a single
error frame to the sender, changes no state and broadcasts nothing;
(ii) with a message that is not a string of 1..1000 characters it does
the same; (iii) with a prior join and a valid message it appends the
stamped message to the channel history, broadcasts it via
`sendToChannel` on the channel, and sends the private `sent` ack. -/
theorem c3_chat_send (st : ChatState) (clientId : String) (channel : Option String)
    (message : JVal) (metadata : List (String × String)) (newId ts : String) :
    (¬ chatJoined st clientId (channel.getD "") →
      (handleSendMessage st clientId channel message metadata newId ts).1 = st ∧
      ∃ e, (handleSendMessage st clientId channel message metadata newId ts).2 =
        [ChatOut.errorTo clientId e]) ∧
    ((∀ m, message = JVal.vStr m → m.length = 0 ∨ m.length > 1000) →
      (handleSendMessage st clientId channel message metadata newId ts).1 = st ∧
      ∃ e, (handleSendMessage st clientId channel message metadata newId ts).2 =
        [ChatOut.errorTo clientId e]) ∧
    (∀ ch m chans, channel = some ch → ch ≠ "" → message = JVal.vStr m →
      1 ≤ m.length → m.length ≤ 1000 →
      mget st.clientChannels clientId = some chans → ch ∈ chans →
      handleSendMessage st clientId channel message metadata newId ts =
        ({ st with
            channelHistory :=
              addToChannelHistory st.channelHistory ch
                (stampedChatMsg newId clientId ch m metadata ts) },
         [ChatOut.channelBroadcast ch (stampedChatMsg newId clientId ch m metadata ts),
          ChatOut.sentAck clientId newId ch ts])) := by
  refine ⟨?_, ?_, ?_⟩
  · intro hnj
    unfold handleSendMessage
    by_cases h1 : ((!(optTruthy channel) || !(message.truthy)) = true)
    · rw [if_pos h1]
      exact ⟨rfl, _, rfl⟩
    · rw [if_neg h1]
      cases message with
      | vStr m =>
        dsimp only
        by_cases h2 : ((decide (m.length = 0) || decide (m.length > 1000)) = true)
        · rw [if_pos h2]
          exact ⟨rfl, _, rfl⟩
        · rw [if_neg h2]
          cases hc : mget st.clientChannels clientId with
          | none => exact ⟨rfl, _, rfl⟩
          | some chans =>
            dsimp only
            have hnotin : channel.getD "" ∉ chans := by
              intro hin
              exact hnj ⟨chans, hc, hin⟩
            rw [if_neg hnotin]
            exact ⟨rfl, _, rfl⟩
      | vNum n => exact ⟨rfl, _, rfl⟩
      | vBool b => exact ⟨rfl, _, rfl⟩
      | vNull => exact ⟨rfl, _, rfl⟩
      | vUndef => exact ⟨rfl, _, rfl⟩
  · intro hbad
    unfold handleSendMessage
    by_cases h1 : ((!(optTruthy channel) || !(message.truthy)) = true)
    · rw [if_pos h1]
      exact ⟨rfl, _, rfl⟩
    · rw [if_neg h1]
      cases message with
      | vStr m =>
        dsimp only
        have h2 : (decide (m.length = 0) || decide (m.length > 1000) : Bool) = true := by
          rcases hbad m rfl with h | h
          · simp [h]
          · simp [h]
        rw [if_pos h2]
        exact ⟨rfl, _, rfl⟩
      | vNum n => exact ⟨rfl, _, rfl⟩
      | vBool b => exact ⟨rfl, _, rfl⟩
      | vNull => exact ⟨rfl, _, rfl⟩
      | vUndef => exact ⟨rfl, _, rfl⟩
  · rintro ch m chans rfl hch rfl hlen1 hlen2 hc hin
    have h1 : (!(optTruthy (some ch)) || !(JVal.truthy (JVal.vStr m))) = false := by
      have htr : (optTruthy (some ch)) = true := by
        unfold optTruthy
        simpa using hch
      have hmt : (JVal.truthy (JVal.vStr m)) = true := by
        unfold JVal.truthy
        simp only [decide_eq_true_eq]
        intro h0
        rw [h0] at hlen1
        simp at hlen1
      rw [htr, hmt]
      rfl
    have h2 : (decide (m.length = 0) || decide (m.length > 1000) : Bool) = false := by
      have hh1 : ¬(m.length = 0) := by omega
      have hh2 : ¬(m.length > 1000) := by omega
      simp [hh1, hh2]
    unfold handleSendMessage
    rw [h1, if_neg (by simp : ¬(false = true))]
    dsimp only
    rw [h2, if_neg (by simp : ¬(false = true)), hc]
    dsimp only
    simp only [Option.getD_some]
    rw [if_pos hin]

/-! ## The reaction service (`services/reaction-service.js`) -/

/-- The recorded reaction `{id, clientId, channel, emoji, effect,
position, metadata, timestamp}`.  `position` is an uninterpreted
passthrough (the code never inspects it); it is typed as an optional
coordinate pair. -/
structure Reaction where
  id : String
  clientId : String
  channel : String
  emoji : String
  effect : String
  position : Option (Int × Int)
  metadata : List (String × String)
  timestamp : String
deriving DecidableEq, Repr

/-- `this.availableReactions`: the fixed emoji catalog, emoji mapped to
its effect name. -/
def availableReactions : List (String × String) :=
  [("❤️", "pulse-red"), ("😂", "shake"), ("👍", "bounce-green"),
   ("👎", "bounce-red"), ("😮", "zoom"), ("😢", "fade-blue"),
   ("😡", "shake-red"), ("🎉", "confetti"), ("🔥", "flicker-orange"),
   ("⚡", "flash-yellow"), ("💯", "spin-gold"), ("🚀", "fly-up")]

structure ReactionState where
  clientChannels : List (String × List String)
  reactionHistory : List (String × List Reaction)
deriving DecidableEq, Repr

/-- `this.maxHistorySize` of the reaction service. -/
def reactionMaxHistorySize : Nat := 50

/-- What `handleSendReaction` emits: an error or success frame through
`sendToLocalClient`, or the `reaction_received` envelope through
`messageRouter.sendToChannel` on `reactions:<channel>`. -/
inductive ReactionOut
  | errorTo (clientId : String) (error : String)
  | ackTo (clientId : String) (action : String) (reactionId : String)
      (emoji : String) (channel : String) (timestamp : String)
  | channelSend (redisChannel : String) (reaction : Reaction)
deriving DecidableEq, Repr

/-- `ReactionService.handleSendReaction`.  `newId` and `ts` stand for
the generated reaction id and the current ISO timestamp.  Note: no
check against `this.clientChannels` appears anywhere on this path. -/
def handleSendReaction (st : ReactionState) (clientId : String)
    (channel emoji : Option String) (position : Option (Int × Int))
    (metadata : List (String × String)) (newId ts : String) :
    ReactionState × List ReactionOut :=
  if !(optTruthy channel) || !(optTruthy emoji) then
    (st, [ReactionOut.errorTo clientId "Channel and emoji are required"])
  else
    match mget availableReactions (emoji.getD "") with
    | none => (st, [ReactionOut.errorTo clientId "Invalid emoji reaction"])
    | some eff =>
      let ch := channel.getD ""
      let reaction : Reaction :=
        { id := newId, clientId := clientId, channel := ch,
          emoji := emoji.getD "", effect := eff, position := position,
          metadata := metadata, timestamp := ts }
      let hist := (mget st.reactionHistory ch).getD []
      let hist2 := hist ++ [reaction]
      let hist3 := if hist2.length > reactionMaxHistorySize then hist2.tail else hist2
      ({ st with reactionHistory := mset st.reactionHistory ch hist3 },
       [ReactionOut.channelSend ("reactions:" ++ ch) reaction,
        ReactionOut.ackTo clientId "reaction_sent" newId (emoji.getD "") ch ts])

/-- Claim C10: reaction `send` needs no prior `subscribe` — whatever
the client's subscription state, a send with a catalog emoji is
recorded in the channel ring, broadcast on `reactions:<channel>` and
acknowledged with `reaction_sent`; only a missing channel/emoji or an
emoji outside the catalog is rejected, with a single error frame and
no state change. -/
theorem c10_reaction_send_no_subscribe (st : ReactionState) (clientId : String)
    (channel emoji : Option String) (position : Option (Int × Int))
    (metadata : List (String × String)) (newId ts : String) :
    (∀ ch em eff, channel = some ch → ch ≠ "" → emoji = some em → em ≠ "" →
      mget availableReactions em = some eff →
      handleSendReaction st clientId channel emoji position metadata newId ts =
        ({ st with
            reactionHistory := mset st.reactionHistory ch
              (let hist2 := ((mget st.reactionHistory ch).getD []) ++
                [{ id := newId, clientId := clientId, channel := ch, emoji := em,
                   effect := eff, position := position, metadata := metadata,
                   timestamp := ts }]
               if hist2.length > reactionMaxHistorySize then hist2.tail else hist2) },
         [ReactionOut.channelSend ("reactions:" ++ ch)
            { id := newId, clientId := clientId, channel := ch, emoji := em,
              effect := eff, position := position, metadata := metadata,
              timestamp := ts },
          ReactionOut.ackTo clientId "reaction_sent" newId em ch ts])) ∧
    ((optTruthy channel = false ∨ optTruthy emoji = false ∨
        mget availableReactions (emoji.getD "") = none) →
      (handleSendReaction st clientId channel emoji position metadata newId ts).1 = st ∧
      ∃ e, (handleSendReaction st clientId channel emoji position metadata newId ts).2 =
        [ReactionOut.errorTo clientId e]) := by
  constructor
  · rintro ch em eff rfl hch rfl hem heff
    have h1 : (!(optTruthy (some ch)) || !(optTruthy (some em))) = false := by
      have htr1 : optTruthy (some ch) = true := by unfold optTruthy; simpa using hch
      have htr2 : optTruthy (some em) = true := by unfold optTruthy; simpa using hem
      rw [htr1, htr2]
      rfl
    unfold handleSendReaction
    rw [h1, if_neg (by simp : ¬(false = true))]
    simp only [Option.getD_some]
    rw [heff]
  · intro hbad
    unfold handleSendReaction
    by_cases h1 : ((!(optTruthy channel) || !(optTruthy emoji)) = true)
    · rw [if_pos h1]
      exact ⟨rfl, _, rfl⟩
    · rw [if_neg h1]
      have hchT : optTruthy channel = true := by
        cases hx : optTruthy channel with
        | true => rfl
        | false =>
          refine absurd ?_ h1
          rw [hx]
          rfl
      have hemT : optTruthy emoji = true := by
        cases hx : optTruthy emoji with
        | true => rfl
        | false =>
          refine absurd ?_ h1
          rw [hx]
          cases optTruthy channel <;> rfl
      have hcat : mget availableReactions (emoji.getD "") = none := by
        rcases hbad with h | h | h
        · rw [h] at hchT
          exact absurd hchT (by decide)
        · rw [h] at hemT
          exact absurd hemT (by decide)
        · exact h
      rw [hcat]
      exact ⟨rfl, _, rfl⟩

/-! ## Claim C8: the history rings stay bounded -/

theorem addToChannelHistory_bound (h : List (String × List ChatMsg)) (ch : String)
    (m : ChatMsg) (c : String)
    (hc : ((mget h c).getD []).length ≤ chatMaxHistorySize) :
    ((mget (addToChannelHistory h ch m) c).getD []).length ≤ chatMaxHistorySize := by
  unfold addToChannelHistory
  by_cases hch : c = ch
  · subst hch
    rw [mget_mset_self, Option.getD_some]
    by_cases hlen : (((mget h c).getD []) ++ [m]).length > chatMaxHistorySize
    · rw [if_pos hlen, List.length_drop]
      omega
    · rw [if_neg hlen]
      omega
  · rw [mget_mset_ne h ch c _ hch]
    exact hc

/-- Every branch of chat `send` leaves the history map unchanged or
appends one message through `addToChannelHistory`. -/
theorem handleSendMessage_state_cases (st : ChatState) (cid : String)
    (channel : Option String) (msg : JVal) (md : List (String × String))
    (newId ts : String) :
    (handleSendMessage st cid channel msg md newId ts).1 = st ∨
    ∃ ch m2, (handleSendMessage st cid channel msg md newId ts).1 =
      { st with channelHistory := addToChannelHistory st.channelHistory ch m2 } := by
  unfold handleSendMessage
  split
  · left; rfl
  · split
    · split
      · left; rfl
      · split
        · split
          · right
            exact ⟨_, _, rfl⟩
          · left; rfl
        · left; rfl
    · left; rfl

theorem handleSendMessage_bound (st : ChatState) (cid : String)
    (channel : Option String) (msg : JVal) (md : List (String × String))
    (newId ts : String)
    (hInv : ∀ c, ((mget st.channelHistory c).getD []).length ≤ chatMaxHistorySize) :
    ∀ c, ((mget (handleSendMessage st cid channel msg md newId ts).1.channelHistory
      c).getD []).length ≤ chatMaxHistorySize := by
  intro c
  rcases handleSendMessage_state_cases st cid channel msg md newId ts with heq | ⟨ch, m2, heq⟩
  · rw [heq]
    exact hInv c
  · rw [heq]
    exact addToChannelHistory_bound st.channelHistory ch m2 c (hInv c)

/-- Pushing one entry on a ring at or under its bound and shifting the
oldest entry out when over it keeps the ring at or under the bound. -/
theorem ringPush_le {α : Type} (l : List α) (r : α) (n : Nat) (h : l.length ≤ n) :
    (if (l ++ [r]).length > n then (l ++ [r]).tail else l ++ [r]).length ≤ n := by
  by_cases hgt : (l ++ [r]).length > n
  · rw [if_pos hgt, List.length_tail]
    simp only [List.length_append, List.length_singleton]
    omega
  · rw [if_neg hgt]
    omega

theorem handleSendReaction_bound (st : ReactionState) (cid : String)
    (channel emoji : Option String) (pos : Option (Int × Int))
    (md : List (String × String)) (newId ts : String)
    (hInv : ∀ c, ((mget st.reactionHistory c).getD []).length ≤ reactionMaxHistorySize) :
    ∀ c, ((mget (handleSendReaction st cid channel emoji pos md newId ts).1.reactionHistory
      c).getD []).length ≤ reactionMaxHistorySize := by
  intro c
  unfold handleSendReaction
  split
  · exact hInv c
  · split
    · exact hInv c
    · dsimp only
      by_cases hch : c = channel.getD ""
      · rw [hch, mget_mset_self, Option.getD_some]
        exact ringPush_le _ _ _ (hInv _)
      · rw [mget_mset_ne st.reactionHistory (channel.getD "") c _ hch]
        exact hInv c

/-- One chat `send` or one reaction `send`, applied to the pair of
service states (the two services are independent). -/
inductive SendOp
  | chat (clientId : String) (channel : Option String) (message : JVal)
      (metadata : List (String × String)) (newId ts : String)
  | reaction (clientId : String) (channel emoji : Option String)
      (position : Option (Int × Int)) (metadata : List (String × String))
      (newId ts : String)

def applySendOp (p : ChatState × ReactionState) : SendOp → ChatState × ReactionState
  | SendOp.chat cid ch msg md newId ts =>
    ((handleSendMessage p.1 cid ch msg md newId ts).1, p.2)
  | SendOp.reaction cid ch em pos md newId ts =>
    (p.1, (handleSendReaction p.2 cid ch em pos md newId ts).1)

/-- Run a sequence of sends from freshly constructed services (empty
histories; the subscription tables are arbitrary). -/
def runSendOps (chatCC reactCC : List (String × List String)) (ops : List SendOp) :
    ChatState × ReactionState :=
  ops.foldl applySendOp
    ({ clientChannels := chatCC, channelHistory := [] },
     { clientChannels := reactCC, reactionHistory := [] })

/-- The recorded reaction built by `handleSendReaction`. -/
def stampedReaction (newId cid chv emv eff : String) (pos : Option (Int × Int))
    (md : List (String × String)) (ts : String) : Reaction :=
  { id := newId, clientId := cid, channel := chv, emoji := emv, effect := eff,
    position := pos, metadata := md, timestamp := ts }

/-- Claim C8: for every channel and every sequence of chat sends and
reaction sends, the chat history never exceeds 100 entries and the
reaction ring never exceeds 50, and when a bound is reached the oldest
entries are the ones discarded: appending a chat message leaves the
channel history equal to `(old ++ [new]).drop (length - 100)` — a drop
from the front, keeping the newest suffix — and a successful reaction
send on any reachable ring leaves it equal to
`(old ++ [new]).drop (length - 50)`. -/
theorem c8_bounded_histories (chatCC reactCC : List (String × List String))
    (ops : List SendOp) (ch : String) :
    (((mget (runSendOps chatCC reactCC ops).1.channelHistory ch).getD []).length ≤
      chatMaxHistorySize ∧
    ((mget (runSendOps chatCC reactCC ops).2.reactionHistory ch).getD []).length ≤
      reactionMaxHistorySize) ∧
    (∀ (h : List (String × List ChatMsg)) (ch2 : String) (m2 : ChatMsg),
      (mget (addToChannelHistory h ch2 m2) ch2).getD [] =
        (((mget h ch2).getD []) ++ [m2]).drop
          ((((mget h ch2).getD []) ++ [m2]).length - chatMaxHistorySize)) ∧
    (∀ (cid : String) (chan em : Option String) (pos : Option (Int × Int))
        (md : List (String × String)) (newId ts2 chv emv eff : String),
      chan = some chv → chv ≠ "" → em = some emv → emv ≠ "" →
      mget availableReactions emv = some eff →
      (mget (handleSendReaction (runSendOps chatCC reactCC ops).2 cid chan em pos md
          newId ts2).1.reactionHistory chv).getD [] =
        (((mget (runSendOps chatCC reactCC ops).2.reactionHistory chv).getD []) ++
            [stampedReaction newId cid chv emv eff pos md ts2]).drop
          ((((mget (runSendOps chatCC reactCC ops).2.reactionHistory chv).getD []) ++
            [stampedReaction newId cid chv emv eff pos md ts2]).length -
            reactionMaxHistorySize)) := by
  have main : ∀ (l : List SendOp) (p : ChatState × ReactionState),
      (∀ c, ((mget p.1.channelHistory c).getD []).length ≤ chatMaxHistorySize) →
      (∀ c, ((mget p.2.reactionHistory c).getD []).length ≤ reactionMaxHistorySize) →
      (∀ c, ((mget (l.foldl applySendOp p).1.channelHistory c).getD []).length ≤
          chatMaxHistorySize) ∧
        (∀ c, ((mget (l.foldl applySendOp p).2.reactionHistory c).getD []).length ≤
          reactionMaxHistorySize) := by
    intro l
    induction l with
    | nil => intro p h1 h2; exact ⟨h1, h2⟩
    | cons op rest ih =>
      intro p h1 h2
      rw [List.foldl_cons]
      cases op with
      | chat cid ch2 msg md newId ts =>
        exact ih _ (handleSendMessage_bound p.1 cid ch2 msg md newId ts h1) h2
      | reaction cid ch2 em pos md newId ts =>
        exact ih _ h1 (handleSendReaction_bound p.2 cid ch2 em pos md newId ts h2)
  have hinit1 : ∀ c, ((mget ([] : List (String × List ChatMsg)) c).getD []).length ≤
      chatMaxHistorySize := by
    intro c
    simp [mget]
  have hinit2 : ∀ c, ((mget ([] : List (String × List Reaction)) c).getD []).length ≤
      reactionMaxHistorySize := by
    intro c
    simp [mget]
  obtain ⟨ha, hb⟩ := main ops
    ({ clientChannels := chatCC, channelHistory := [] },
     { clientChannels := reactCC, reactionHistory := [] }) hinit1 hinit2
  refine ⟨⟨ha ch, hb ch⟩, ?_, ?_⟩
  · intro h ch2 m2
    unfold addToChannelHistory
    rw [mget_mset_self, Option.getD_some]
    by_cases hlen : (((mget h ch2).getD []) ++ [m2]).length > chatMaxHistorySize
    · rw [if_pos hlen]
    · rw [if_neg hlen]
      have h0 : (((mget h ch2).getD []) ++ [m2]).length - chatMaxHistorySize = 0 := by
        omega
      rw [h0, List.drop_zero]
  · rintro cid chan em pos md newId ts2 chv emv eff rfl hch rfl hem heff
    have h1 : (!(optTruthy (some chv)) || !(optTruthy (some emv))) = false := by
      have t1 : optTruthy (some chv) = true := by
        unfold optTruthy
        simpa using hch
      have t2 : optTruthy (some emv) = true := by
        unfold optTruthy
        simpa using hem
      rw [t1, t2]
      rfl
    unfold handleSendReaction
    rw [h1, if_neg (by simp : ¬(false = true))]
    simp only [Option.getD_some]
    rw [heff]
    dsimp only
    rw [mget_mset_self, Option.getD_some]
    rw [show ({ id := newId, clientId := cid, channel := chv, emoji := emv,
                effect := eff, position := pos, metadata := md,
                timestamp := ts2 } : Reaction) =
        stampedReaction newId cid chv emv eff pos md ts2 from rfl]
    have hbv : ((mget (runSendOps chatCC reactCC ops).2.reactionHistory chv).getD
        []).length ≤ reactionMaxHistorySize := hb chv
    by_cases hgt : (((mget (runSendOps chatCC reactCC ops).2.reactionHistory chv).getD
        []) ++ [stampedReaction newId cid chv emv eff pos md ts2]).length >
        reactionMaxHistorySize
    · rw [if_pos hgt]
      have h1l : (((mget (runSendOps chatCC reactCC ops).2.reactionHistory chv).getD
          []) ++ [stampedReaction newId cid chv emv eff pos md ts2]).length -
          reactionMaxHistorySize = 1 := by
        simp only [List.length_append, List.length_singleton] at hgt ⊢
        omega
      rw [h1l, List.drop_one]
    · rw [if_neg hgt]
      have h0 : (((mget (runSendOps chatCC reactCC ops).2.reactionHistory chv).getD
          []) ++ [stampedReaction newId cid chv emv eff pos md ts2]).length -
          reactionMaxHistorySize = 0 := by
        simp only [List.length_append, List.length_singleton] at hgt ⊢
        omega
      rw [h0, List.drop_zero]

/-! ## The cursor service (`services/cursor-service.js`, the enhanced
multi-mode version with the TTL sweeper; instantiated without a Redis
client, so cursor data lives in the local maps)

Timestamps are natural numbers of milliseconds; `Date.now()` at the
time of a call is the explicit `now` argument, and the ISO timestamp
stored in the cursor record denotes the same instant.  The metadata
enrichment (user initials, user colour) is not modelled; no claim
observes it. -/

/-- A position object as the mode validators observe it: which numeric
fields are present. -/
structure Pos where
  x : Option Int
  y : Option Int
  row : Option Int
  col : Option Int
  position : Option Int
deriving DecidableEq, Repr

/-- The keys of `this.supportedModes`. -/
def supportedModeNames : List String := ["freeform", "table", "text", "canvas"]

/-- `requiredFields` of each supported mode. -/
def requiredFields : String → List String
  | "freeform" => ["x", "y"]
  | "table" => ["row", "col"]
  | "text" => ["position"]
  | "canvas" => ["x", "y"]
  | _ => []

def posField (p : Pos) : String → Option Int
  | "x" => p.x
  | "y" => p.y
  | "row" => p.row
  | "col" => p.col
  | "position" => p.position
  | _ => none

/-- `CursorService.validatePositionForMode`: all required fields
present, then the per-mode type/range switch. -/
def validatePositionForMode (p : Pos) (mode : String) : Bool :=
  if mode ∉ supportedModeNames then false
  else if (requiredFields mode).any (fun f => (posField p f).isNone) then false
  else
    match mode with
    | "freeform" => p.x.isSome && p.y.isSome
    | "canvas" => p.x.isSome && p.y.isSome
    | "table" =>
      match p.row, p.col with
      | some r, some c => decide (0 ≤ r) && decide (0 ≤ c)
      | _, _ => false
    | "text" =>
      match p.position with
      | some t => decide (0 ≤ t)
      | _ => false
    | _ => false

/-- The stored cursor record (id, channel, position, mode, and the
timestamp the TTL sweeper compares against). -/
structure CursorData where
  clientId : String
  channel : String
  position : Pos
  mode : String
  timestamp : Nat
deriving DecidableEq, Repr

structure CursorState where
  clientCursors : List (String × CursorData)
  channelCursors : List (String × List (String × CursorData))
  cursorUpdateThrottle : List (String × Nat)
deriving DecidableEq, Repr

/-- `this.throttleInterval` (250 ms). -/
def throttleInterval : Nat := 250

/-- `this.cursorTTL` (30 s). -/
def cursorTTL : Nat := 30000

/-- `this.cleanupInterval` (10 s). -/
def cursorCleanupInterval : Nat := 10000

/-- What the cursor handlers emit: an error frame through
`sendToClient`, or an `update` / `remove` envelope through
`messageRouter.sendToChannel` on `cursor:<channel>`. -/
inductive CursorOut
  | errorTo (clientId : String) (error : String)
  | updateSend (redisChannel : String) (cursor : CursorData) (excludeClientId : String)
  | removeSend (redisChannel : String) (channel : String) (clientId : String)
deriving DecidableEq, Repr

/-- `CursorService.shouldUpdateCursor`: drop when the last accepted
update is younger than the throttle interval, else stamp `now`. -/
def shouldUpdateCursor (st : CursorState) (now : Nat) (clientId : String) :
    Bool × CursorState :=
  let lastUpdate := (mget st.cursorUpdateThrottle clientId).getD 0
  if now - lastUpdate < throttleInterval then (false, st)
  else (true, { st with cursorUpdateThrottle := mset st.cursorUpdateThrottle clientId now })

/-- `CursorService.storeLocalCursorData`. -/
def storeLocalCursorData (st : CursorState) (clientId channel : String)
    (cursorData : CursorData) : CursorState :=
  { st with
    clientCursors := mset st.clientCursors clientId cursorData,
    channelCursors := mset st.channelCursors channel
      (mset ((mget st.channelCursors channel).getD []) clientId cursorData) }

/-- `CursorService.handleUpdateCursor` (local storage path). -/
def handleUpdateCursor (st : CursorState) (now : Nat) (clientId : String)
    (channel : Option String) (position : Option Pos) (mode : String) :
    CursorState × List CursorOut :=
  match position with
  | none => (st, [CursorOut.errorTo clientId "Channel and position are required"])
  | some p =>
    if !(optTruthy channel) then
      (st, [CursorOut.errorTo clientId "Channel and position are required"])
    else if mode ∉ supportedModeNames then
      (st, [CursorOut.errorTo clientId ("Unsupported cursor mode: " ++ mode)])
    else if !(validatePositionForMode p mode) then
      (st, [CursorOut.errorTo clientId ("Invalid position for mode " ++ mode)])
    else
      match shouldUpdateCursor st now clientId with
      | (false, st1) => (st1, [])
      | (true, st1) =>
        let ch := channel.getD ""
        let cursorData : CursorData :=
          { clientId := clientId, channel := ch, position := p, mode := mode,
            timestamp := now }
        (storeLocalCursorData st1 clientId ch cursorData,
         [CursorOut.updateSend ("cursor:" ++ ch) cursorData clientId])

/-- The throttle-window state of claim C7's counterexample: the last
accepted update of client `c1` was stamped at 1000 ms. -/
def c7St : CursorState :=
  { clientCursors := [], channelCursors := [],
    cursorUpdateThrottle := [("c1", 1000)] }

/-- Claim C7, counterexample: a malformed cursor update (no position)
arriving 100 ms — sooner than THROTTLE_INTERVAL — after the last
accepted update is NOT silently dropped: an error frame is returned. -/
theorem c7_counterexample :
    1100 - 1000 < throttleInterval ∧
    (handleUpdateCursor c7St 1100 "c1" (some "room") none "freeform").2 =
      [CursorOut.errorTo "c1" "Channel and position are required"] := by
  constructor
  · decide
  · rfl

/-- Claim C7 as amended: (i) an update arriving sooner than
THROTTLE_INTERVAL after the last accepted one never broadcasts and
never changes the cursor state — a well-formed one is silently dropped
(empty output), while a malformed one still receives its validation
error frame; (ii) a well-formed update at or past the interval is
accepted: it stamps the throttle with `now`, stores the cursor and
broadcasts exactly one `update` envelope on `cursor:<channel>`, so two
broadcasts for one client are always at least THROTTLE_INTERVAL
apart. -/
theorem c7_throttle (st : CursorState) (now : Nat) (clientId : String)
    (channel : Option String) (position : Option Pos) (mode : String) :
    (now - (mget st.cursorUpdateThrottle clientId).getD 0 < throttleInterval →
      (∀ p ch, position = some p → channel = some ch → ch ≠ "" →
        mode ∈ supportedModeNames → validatePositionForMode p mode = true →
        handleUpdateCursor st now clientId channel position mode = (st, [])) ∧
      (handleUpdateCursor st now clientId channel position mode).1 = st ∧
      (∀ out, out ∈ (handleUpdateCursor st now clientId channel position mode).2 →
        ∃ e, out = CursorOut.errorTo clientId e)) ∧
    (¬(now - (mget st.cursorUpdateThrottle clientId).getD 0 < throttleInterval) →
      ∀ p ch, position = some p → channel = some ch → ch ≠ "" →
        mode ∈ supportedModeNames → validatePositionForMode p mode = true →
        handleUpdateCursor st now clientId channel position mode =
          (storeLocalCursorData
            { st with cursorUpdateThrottle := mset st.cursorUpdateThrottle clientId now }
            clientId ch
            { clientId := clientId, channel := ch, position := p, mode := mode,
              timestamp := now },
           [CursorOut.updateSend ("cursor:" ++ ch)
              { clientId := clientId, channel := ch, position := p, mode := mode,
                timestamp := now } clientId])) := by
  constructor
  · intro hthr
    have hdrop : ∀ p, position = some p → optTruthy channel = true →
        mode ∈ supportedModeNames → validatePositionForMode p mode = true →
        handleUpdateCursor st now clientId channel position mode = (st, []) := by
      rintro p rfl htru hmode hval
      unfold handleUpdateCursor
      dsimp only
      rw [htru]
      rw [if_neg (by simp : ¬((!true) = true))]
      rw [if_neg (by simpa using hmode)]
      rw [hval]
      rw [if_neg (by simp : ¬((!true) = true))]
      unfold shouldUpdateCursor
      rw [if_pos hthr]
    refine ⟨?_, ?_, ?_⟩
    · rintro p ch hp rfl hch hmode hval
      refine hdrop p hp ?_ hmode hval
      unfold optTruthy
      simpa using hch
    · cases position with
      | none => rfl
      | some p =>
        unfold handleUpdateCursor
        dsimp only
        by_cases htru : optTruthy channel = true
        · rw [htru]
          rw [if_neg (by simp : ¬((!true) = true))]
          by_cases hmode : mode ∈ supportedModeNames
          · rw [if_neg (by simpa using hmode)]
            by_cases hval : validatePositionForMode p mode = true
            · rw [hval]
              rw [if_neg (by simp : ¬((!true) = true))]
              unfold shouldUpdateCursor
              rw [if_pos hthr]
            · have hvf : validatePositionForMode p mode = false := by
                cases hx : validatePositionForMode p mode with
                | false => rfl
                | true => exact absurd hx hval
              rw [hvf]
              rw [if_pos (by simp : (!false) = true)]
          · rw [if_pos (by simpa using hmode)]
        · have htf : optTruthy channel = false := by
            cases hx : optTruthy channel with
            | false => rfl
            | true => exact absurd hx htru
          rw [htf]
          rw [if_pos (by simp : (!false) = true)]
    · intro out hout
      cases position with
      | none =>
        simp only [handleUpdateCursor, List.mem_singleton] at hout
        exact ⟨_, hout⟩
      | some p =>
        unfold handleUpdateCursor at hout
        dsimp only at hout
        by_cases htru : optTruthy channel = true
        · rw [htru, if_neg (by simp : ¬((!true) = true))] at hout
          by_cases hmode : mode ∈ supportedModeNames
          · rw [if_neg (by simpa using hmode)] at hout
            by_cases hval : validatePositionForMode p mode = true
            · rw [hval, if_neg (by simp : ¬((!true) = true))] at hout
              unfold shouldUpdateCursor at hout
              rw [if_pos hthr] at hout
              simp at hout
            · have hvf : validatePositionForMode p mode = false := by
                cases hx : validatePositionForMode p mode with
                | false => rfl
                | true => exact absurd hx hval
              rw [hvf, if_pos (by simp : (!false) = true)] at hout
              simp only [List.mem_singleton] at hout
              exact ⟨_, hout⟩
          · rw [if_pos (by simpa using hmode)] at hout
            simp only [List.mem_singleton] at hout
            exact ⟨_, hout⟩
        · have htf : optTruthy channel = false := by
            cases hx : optTruthy channel with
            | false => rfl
            | true => exact absurd hx htru
          rw [htf, if_pos (by simp : (!false) = true)] at hout
          simp only [List.mem_singleton] at hout
          exact ⟨_, hout⟩
  · rintro hthr p ch rfl rfl hch hmode hval
    have htru : optTruthy (some ch) = true := by
      unfold optTruthy
      simpa using hch
    unfold handleUpdateCursor
    dsimp only
    rw [htru, if_neg (by simp : ¬((!true) = true))]
    rw [if_neg (by simpa using hmode)]
    rw [hval, if_neg (by simp : ¬((!true) = true))]
    unfold shouldUpdateCursor
    rw [if_neg hthr]
    dsimp only [Option.getD_some]

/-! ## Claim C2: the TTL sweeper (`cleanupStaleData`, every
`cleanupInterval` ms) removes expired cursors and publishes one
`remove` event each -/

/-- `CursorService.removeStaleClientCursor`: drop the client's cursor,
drop it from its channel map (deleting the emptied map), broadcast the
`remove` event when the channel map existed, and clear the throttle
entry. -/
def removeStaleClientCursor (st : CursorState) (clientId : String) :
    CursorState × List CursorOut :=
  match mget st.clientCursors clientId with
  | none =>
    ({ st with cursorUpdateThrottle := mdel st.cursorUpdateThrottle clientId }, [])
  | some cursorData =>
    let st1 := { st with clientCursors := mdel st.clientCursors clientId }
    match mget st1.channelCursors cursorData.channel with
    | none =>
      ({ st1 with cursorUpdateThrottle := mdel st1.cursorUpdateThrottle clientId }, [])
    | some channelMap =>
      let cc2 :=
        if (mdel channelMap clientId).isEmpty then
          mdel st1.channelCursors cursorData.channel
        else mset st1.channelCursors cursorData.channel (mdel channelMap clientId)
      let st2 := { st1 with channelCursors := cc2 }
      ({ st2 with cursorUpdateThrottle := mdel st2.cursorUpdateThrottle clientId },
       [CursorOut.removeSend ("cursor:" ++ cursorData.channel) cursorData.channel clientId])

def sweepStep (acc : CursorState × List CursorOut) (clientId : String) :
    CursorState × List CursorOut :=
  ((removeStaleClientCursor acc.1 clientId).1,
   acc.2 ++ (removeStaleClientCursor acc.1 clientId).2)

/-- `CursorService.cleanupStaleData`: find the cursors older than
`cursorTTL` at time `now`, remove each, collecting the broadcasts. -/
def cleanupStaleData (st : CursorState) (now : Nat) : CursorState × List CursorOut :=
  let staleCursors := (st.clientCursors.filter
    (fun q => decide (now - q.2.timestamp > cursorTTL))).map Prod.fst
  staleCursors.foldl sweepStep (st, [])

/-- The local cursor store is consistent: every client cursor is also
indexed under its channel (true of every state `storeLocalCursorData`
builds). -/
def cursorConsistent (st : CursorState) : Bool :=
  st.clientCursors.all (fun p =>
    match mget st.channelCursors p.2.channel with
    | none => false
    | some m2 => (mget m2 p.1).isSome)

theorem mget_of_mem_nodup {α : Type} {m : List (String × α)} (hnd : KeysNodup m)
    {p : String × α} (hp : p ∈ m) : mget m p.1 = some p.2 := by
  induction m with
  | nil => simp at hp
  | cons hd tl ih =>
    unfold KeysNodup at hnd
    rw [List.map_cons, List.nodup_cons] at hnd
    rcases List.mem_cons.mp hp with rfl | hp2
    · rcases p with ⟨k, v⟩
      rw [mget_cons, if_pos rfl]
    · have hne : hd.1 ≠ p.1 := by
        intro he
        exact hnd.1 (he ▸ List.mem_map_of_mem Prod.fst hp2)
      rcases hd with ⟨k1, v1⟩
      rw [mget_cons, if_neg hne]
      exact ih hnd.2 hp2

theorem removeStale_eq (st : CursorState) (cid : String) (d : CursorData)
    (m2 : List (String × CursorData))
    (hc : mget st.clientCursors cid = some d)
    (hm : mget st.channelCursors d.channel = some m2) :
    removeStaleClientCursor st cid =
      ({ clientCursors := mdel st.clientCursors cid,
         channelCursors :=
           if (mdel m2 cid).isEmpty then mdel st.channelCursors d.channel
           else mset st.channelCursors d.channel (mdel m2 cid),
         cursorUpdateThrottle := mdel st.cursorUpdateThrottle cid },
       [CursorOut.removeSend ("cursor:" ++ d.channel) d.channel cid]) := by
  unfold removeStaleClientCursor
  rw [hc]
  dsimp only
  rw [hm]

/-- The inner induction of claim C2: folding the per-client removal
over a duplicate-free list of stale clients (each present and indexed
in its channel map) emits exactly one `remove` event per client, in
order, and deletes exactly those clients from the cursor table. -/
theorem sweepFold (dataOf : String → CursorData) (L : List String) :
    ∀ (s : CursorState) (evs : List CursorOut),
    L.Nodup →
    KeysNodup s.clientCursors →
    (∀ cid ∈ L, mget s.clientCursors cid = some (dataOf cid) ∧
      ∃ m2, mget s.channelCursors (dataOf cid).channel = some m2 ∧
        (mget m2 cid).isSome) →
    (L.foldl sweepStep (s, evs)).2 =
      evs ++ L.map (fun cid =>
        CursorOut.removeSend ("cursor:" ++ (dataOf cid).channel) (dataOf cid).channel cid) ∧
    (∀ x, mget (L.foldl sweepStep (s, evs)).1.clientCursors x =
      if x ∈ L then none else mget s.clientCursors x) ∧
    KeysNodup (L.foldl sweepStep (s, evs)).1.clientCursors := by
  induction L with
  | nil =>
    intro s evs _ hkeys _
    refine ⟨by simp, ?_, hkeys⟩
    intro x
    simp
  | cons cid rest ih =>
    intro s evs hnodup hkeys hmem
    rw [List.foldl_cons]
    obtain ⟨hc, m2, hm2, hsome⟩ := hmem cid (List.mem_cons_self cid rest)
    have hstep : sweepStep (s, evs) cid =
        ({ clientCursors := mdel s.clientCursors cid,
           channelCursors :=
             if (mdel m2 cid).isEmpty then mdel s.channelCursors (dataOf cid).channel
             else mset s.channelCursors (dataOf cid).channel (mdel m2 cid),
           cursorUpdateThrottle := mdel s.cursorUpdateThrottle cid },
         evs ++ [CursorOut.removeSend ("cursor:" ++ (dataOf cid).channel)
           (dataOf cid).channel cid]) := by
      unfold sweepStep
      rw [removeStale_eq s cid (dataOf cid) m2 hc hm2]
    rw [hstep]
    have hnodup2 := (List.nodup_cons.mp hnodup).2
    have hcidrest := (List.nodup_cons.mp hnodup).1
    have hkeys2 : KeysNodup (mdel s.clientCursors cid) := keysNodup_mdel cid hkeys
    have hmem2 : ∀ cid2 ∈ rest,
        mget (mdel s.clientCursors cid) cid2 = some (dataOf cid2) ∧
        ∃ mB, mget (if (mdel m2 cid).isEmpty
            then mdel s.channelCursors (dataOf cid).channel
            else mset s.channelCursors (dataOf cid).channel (mdel m2 cid))
          (dataOf cid2).channel = some mB ∧ (mget mB cid2).isSome := by
      intro cid2 hcid2
      have hne : cid2 ≠ cid := by
        rintro rfl
        exact hcidrest hcid2
      obtain ⟨hc2, mB, hmB, hsomeB⟩ := hmem cid2 (List.mem_cons_of_mem cid hcid2)
      refine ⟨by rw [mget_mdel_ne _ _ _ hne]; exact hc2, ?_⟩
      by_cases hch : (dataOf cid2).channel = (dataOf cid).channel
      · have hmBm2 : mB = m2 := by
          rw [hch] at hmB
          rw [hmB] at hm2
          exact (Option.some.injEq mB m2).mp hm2
      -- the channel map survives: cid2 is still in it
        have hmem3 : (mget (mdel m2 cid) cid2).isSome := by
          rw [mget_mdel_ne _ _ _ hne, ← hmBm2]
          exact hsomeB
        have hnotEmpty : ((mdel m2 cid).isEmpty : Bool) = false := by
          cases hmm : mdel m2 cid with
          | nil =>
            rw [hmm] at hmem3
            simp [mget] at hmem3
          | cons a l => rfl
        rw [hch, hnotEmpty]
        rw [if_neg (by simp : ¬(false = true))]
        exact ⟨mdel m2 cid, mget_mset_self _ _ _, hmem3⟩
      · refine ⟨mB, ?_, hsomeB⟩
        by_cases hemp : ((mdel m2 cid).isEmpty : Bool) = true
        · rw [hemp, if_pos rfl, mget_mdel_ne _ _ _ hch]
          exact hmB
        · have hef : ((mdel m2 cid).isEmpty : Bool) = false := by
            cases hx : ((mdel m2 cid).isEmpty : Bool) with
            | false => rfl
            | true => exact absurd hx hemp
          rw [hef, if_neg (by simp : ¬(false = true)), mget_mset_ne _ _ _ _ hch]
          exact hmB
    obtain ⟨ihevs, ihmget, ihnodup⟩ := ih
      { clientCursors := mdel s.clientCursors cid,
        channelCursors :=
          if (mdel m2 cid).isEmpty then mdel s.channelCursors (dataOf cid).channel
          else mset s.channelCursors (dataOf cid).channel (mdel m2 cid),
        cursorUpdateThrottle := mdel s.cursorUpdateThrottle cid }
      (evs ++ [CursorOut.removeSend ("cursor:" ++ (dataOf cid).channel)
        (dataOf cid).channel cid])
      hnodup2 hkeys2 hmem2
    refine ⟨?_, ?_, ihnodup⟩
    · rw [ihevs]
      simp
    · intro x
      rw [ihmget x]
      by_cases hxr : x ∈ rest
      · rw [if_pos hxr, if_pos (List.mem_cons_of_mem cid hxr)]
      · rw [if_neg hxr]
        by_cases hxc : x = cid
        · subst hxc
          rw [if_pos (List.mem_cons_self x rest)]
          exact mget_mdel_self _ _
        · rw [if_neg (by simp [hxc, hxr] : ¬(x ∈ cid :: rest))]
          exact mget_mdel_ne _ _ _ hxc

theorem cleanup_no_stale (st2 : CursorState) (now : Nat)
    (h : st2.clientCursors.filter (fun q => decide (now - q.2.timestamp > cursorTTL)) = []) :
    (cleanupStaleData st2 now).2 = [] := by
  unfold cleanupStaleData
  rw [h]
  rfl

def cursorDataDefault : CursorData :=
  { clientId := "", channel := "",
    position := { x := none, y := none, row := none, col := none, position := none },
    mode := "", timestamp := 0 }

/-- Claim C2: on a consistent cursor store, one sweep at time `now`
removes every cursor entry older than CURSOR_TTL (so an expired entry
is gone within one CURSOR_CLEANUP period, the sweeper's cadence) and
publishes exactly one `remove` event for it on `cursor:<channel>`;
running the sweeper again publishes no further event. -/
theorem c2_cursor_ttl_sweep (st : CursorState) (now : Nat)
    (hnd : KeysNodup st.clientCursors)
    (hcons : cursorConsistent st = true) :
    (∀ cid d, mget st.clientCursors cid = some d → now - d.timestamp > cursorTTL →
      mget (cleanupStaleData st now).1.clientCursors cid = none ∧
      (cleanupStaleData st now).2.count
        (CursorOut.removeSend ("cursor:" ++ d.channel) d.channel cid) = 1) ∧
    (cleanupStaleData (cleanupStaleData st now).1 now).2 = [] := by
  have hpoint : ∀ cid d, mget st.clientCursors cid = some d →
      ∃ m2, mget st.channelCursors d.channel = some m2 ∧ (mget m2 cid).isSome := by
    intro cid d hc
    have hpmem := mget_mem hc
    have hall := (List.all_eq_true.mp hcons) (cid, d) hpmem
    revert hall
    cases hmm : mget st.channelCursors d.channel with
    | none => intro hall; simp at hall
    | some mX => intro hall; exact ⟨mX, rfl, by simpa using hall⟩
  have hLnodup : ((st.clientCursors.filter
      (fun q => decide (now - q.2.timestamp > cursorTTL))).map Prod.fst).Nodup := by
    have hsub := (List.filter_sublist (l := st.clientCursors)
      (p := fun q => decide (now - q.2.timestamp > cursorTTL))).map Prod.fst
    exact hsub.nodup hnd
  have hmem : ∀ cid ∈ (st.clientCursors.filter
      (fun q => decide (now - q.2.timestamp > cursorTTL))).map Prod.fst,
      mget st.clientCursors cid =
        some ((mget st.clientCursors cid).getD cursorDataDefault) ∧
      ∃ m2, mget st.channelCursors
          ((mget st.clientCursors cid).getD cursorDataDefault).channel = some m2 ∧
        (mget m2 cid).isSome := by
    intro cid hcid
    obtain ⟨q, hq, hql⟩ := List.mem_map.mp hcid
    have hqm : q ∈ st.clientCursors := List.mem_of_mem_filter hq
    have hget : mget st.clientCursors q.1 = some q.2 := mget_of_mem_nodup hnd hqm
    subst hql
    rw [hget]
    exact ⟨rfl, hpoint q.1 q.2 hget⟩
  obtain ⟨hevs, hmget, hnodup2⟩ := sweepFold
    (fun cid => (mget st.clientCursors cid).getD cursorDataDefault)
    ((st.clientCursors.filter
      (fun q => decide (now - q.2.timestamp > cursorTTL))).map Prod.fst)
    st [] hLnodup hnd hmem
  have hclean : cleanupStaleData st now =
      ((st.clientCursors.filter
        (fun q => decide (now - q.2.timestamp > cursorTTL))).map Prod.fst).foldl
        sweepStep (st, []) := rfl
  constructor
  · intro cid d hc hstale
    have hcidL : cid ∈ (st.clientCursors.filter
        (fun q => decide (now - q.2.timestamp > cursorTTL))).map Prod.fst :=
      List.mem_map_of_mem Prod.fst
        (List.mem_filter.mpr ⟨mget_mem hc, by simpa using hstale⟩)
    constructor
    · rw [hclean, hmget cid, if_pos hcidL]
    · rw [hclean, hevs]
      simp only [List.nil_append]
      have hdata : (mget st.clientCursors cid).getD cursorDataDefault = d := by
        rw [hc]
        rfl
      rw [← hdata]
      have hinj : Function.Injective (fun cid2 =>
          CursorOut.removeSend
            ("cursor:" ++ ((mget st.clientCursors cid2).getD cursorDataDefault).channel)
            ((mget st.clientCursors cid2).getD cursorDataDefault).channel cid2) := by
        intro a b hab
        simp only [CursorOut.removeSend.injEq] at hab
        exact hab.2.2
      rw [List.count_map_of_injective _ _ hinj cid]
      exact List.count_eq_one_of_mem hLnodup hcidL
  · apply cleanup_no_stale
    rw [List.filter_eq_nil_iff]
    intro q hq
    have hqget := mget_of_mem_nodup (by rw [hclean] at *; exact hnodup2) hq
    rw [hclean, hmget q.1] at hqget
    by_cases hqL : q.1 ∈ (st.clientCursors.filter
        (fun q2 => decide (now - q2.2.timestamp > cursorTTL))).map Prod.fst
    · rw [if_pos hqL] at hqget
      simp at hqget
    · rw [if_neg hqL] at hqget
      simp only [decide_eq_true_eq]
      intro hstaleq
      apply hqL
      exact List.mem_map_of_mem Prod.fst
        (List.mem_filter.mpr ⟨mget_mem hqget, by simpa using hstaleq⟩)

/-- The concrete state of claim C2's witness: one cursor of client `a`
in channel `r`, stamped at time 0, swept at time 40000. -/
def c2Cursor : CursorData :=
  { clientId := "a", channel := "r",
    position := { x := some 1, y := some 2, row := none, col := none, position := none },
    mode := "freeform", timestamp := 0 }

def c2St : CursorState :=
  { clientCursors := [("a", c2Cursor)],
    channelCursors := [("r", [("a", c2Cursor)])],
    cursorUpdateThrottle := [] }

theorem c2_cursor_ttl_sweep_witness :
    mget (cleanupStaleData c2St 40000).1.clientCursors "a" = none ∧
    (cleanupStaleData c2St 40000).2.count
      (CursorOut.removeSend ("cursor:" ++ "r") "r" "a") = 1 ∧
    (cleanupStaleData (cleanupStaleData c2St 40000).1 40000).2 = [] := by
  have h := c2_cursor_ttl_sweep c2St 40000 (by decide) (by decide)
  have h1 := (h.1 "a" c2Cursor (by decide) (by decide))
  exact ⟨h1.1, h1.2, h.2⟩

end WsGateway
